import Mathlib

/-!
nginx-swarm: declaration validation, routing-table construction and the monitor loop.

A shallow embedding of `api.go`, `monitor.go` and the two methods of `nginx.go` that the
monitor loop calls.

* Go slices are Lean lists, Go `int` is `Int` (no arithmetic is performed on ports).
* `net.IP` is a byte slice: `List Nat`.  Its textual form (`net.IP.String`, Go standard
  library) is a parameter `ipString` of everything that formats an address.
* `sort.Slice` (Go standard library) is a parameter `sortSlice`, constrained by `SortContract`.
  `goInsertionSort` is the insertion sort that `sort.Slice` runs on short slices.
* A method with a pointer receiver that mutates it returns the new value of the receiver.
* A run-time panic (index out of range) is the failure `Failure.indexOutOfRange`.
-/

namespace NginxSwarm

/-! ## Data model (api.go) -/

/-- Go `type Protocol int`. -/
abbrev Protocol := Int

/-- Constant `ProtocolTCP` (iota = 0). -/
def ProtocolTCP : Protocol := 0

/-- Constant `ProtocolUDP` (iota = 1). -/
def ProtocolUDP : Protocol := 1

/-- Method `Protocol.String`. -/
def Protocol.String (p : Protocol) : String :=
  if p = ProtocolTCP then "tcp" else "udp"

/-- Go `net.IP`, a slice of bytes. -/
abbrev IP := List Nat

/-- Rendered configuration bytes. -/
abbrev Bytes := List Nat

/-- Struct `ServiceConfig`. -/
structure ServiceConfig where
  Name : String
  ID : String
  Network : String
  Ports : List Int
  ListenIPs : List IP
  ListenPorts : List Int
  ListenProtos : List Protocol
  deriving DecidableEq

/-- Struct `Server`. -/
structure Server where
  Address : IP
  Port : Int
  deriving DecidableEq

/-- Struct `Proxy`. -/
structure Proxy where
  Name : String
  ListenIP : IP
  ListenPort : Int
  ListenProto : Protocol
  Servers : List Server
  deriving DecidableEq

/-- Struct `NGINXConfig`. -/
structure NGINXConfig where
  Proxies : List Proxy
  deriving DecidableEq

/-- How a call can fail: a returned Go `error`, or a run-time panic on a slice index. -/
inductive Failure where
  | error (msg : String)
  | indexOutOfRange
  deriving DecidableEq

deriving instance DecidableEq for Except

/-! ## Validate (api.go, lines 41-101) -/

/-- One iteration of `c.X = append(c.X, c.X[0])`.  The loop is only entered when the
slice is non-empty, so the empty case (a panic in Go) is never reached from `Validate`. -/
def appendFirst {α : Type} (xs : List α) : List α :=
  match xs with
  | [] => xs
  | x :: _ => xs ++ [x]

/-- The loop `for i := 1; i < max; i++ { c.X = append(c.X, c.X[0]) }`, started at `i`. -/
def broadcastFrom {α : Type} (max : Nat) : Nat → Nat → List α → List α
  | 0, _, xs => xs
  | fuel + 1, i, xs =>
    if i < max then broadcastFrom max fuel (i + 1) (appendFirst xs) else xs

/-- The whole loop: `i` runs from `1`; `max` iterations of fuel are more than enough. -/
def broadcast {α : Type} (max : Nat) (xs : List α) : List α :=
  broadcastFrom max max 1 xs

/-- The `max` computed in lines 55-65. -/
def maxLen (c : ServiceConfig) : Nat :=
  let max := c.Ports.length
  let max := if c.ListenIPs.length > max then c.ListenIPs.length else max
  let max := if c.ListenPorts.length > max then c.ListenPorts.length else max
  let max := if c.ListenProtos.length > max then c.ListenProtos.length else max
  max

/-- The text of `fmt.Errorf("<attr> length mismatch. Expected %d or 1, got %d", max, l)`. -/
def mismatch (attr : String) (max l : Nat) : String :=
  attr ++ " length mismatch. Expected " ++ toString max ++ " or 1, got " ++ toString l

/-- One of the four blocks of lines 68-98 on the slice `xs`:
`if l := len(xs); l == 1 { broadcast } else if l < max { return error }`. -/
def checkLen {α : Type} (attr : String) (max : Nat) (xs : List α) : Except String (List α) :=
  let l := xs.length
  if l = 1 then .ok (broadcast max xs)
  else if l < max then .error (mismatch attr max l)
  else .ok xs

/-- Method `(*ServiceConfig).Validate`: the receiver after the call and the returned error
(`none` is Go's `nil`). -/
def ServiceConfig.Validate (c : ServiceConfig) : ServiceConfig × Option String :=
  if c.Name = "" then (c, some "Name must be set")
  else if c.ID = "" then (c, some "ID must be set")
  else if c.Network = "" then (c, some "nginx.network must be set")
  else
    let max := maxLen c
    match checkLen "nginx.port" max c.Ports with
    | .error e => (c, some e)
    | .ok ports =>
      let c := { c with Ports := ports }
      match checkLen "nginx.listenIP" max c.ListenIPs with
      | .error e => (c, some e)
      | .ok ips =>
        let c := { c with ListenIPs := ips }
        match checkLen "nginx.listenPort" max c.ListenPorts with
        | .error e => (c, some e)
        | .ok lports =>
          let c := { c with ListenPorts := lports }
          match checkLen "nginx.listenProto" max c.ListenProtos with
          | .error e => (c, some e)
          | .ok protos => ({ c with ListenProtos := protos }, none)

/-! ### Vocabulary of the properties of `Validate` -/

/-- The length `L` of the specification: the maximum of the four lengths. -/
def commonLength (c : ServiceConfig) : Nat :=
  max (max c.Ports.length c.ListenIPs.length) (max c.ListenPorts.length c.ListenProtos.length)

/-- A sequence whose length is neither 1 nor `L`. -/
def Offending {α : Type} (L : Nat) (xs : List α) : Prop :=
  xs.length ≠ 1 ∧ xs.length ≠ L

/-- The sequence `after` is `before` normalized to length `L`: it has length `L`, it is
`before` itself when `before` has length `L`, and otherwise `L` copies of the single
element of `before`. -/
def NormalizedTo {α : Type} (L : Nat) (before after : List α) : Prop :=
  after.length = L ∧ (before.length = L → after = before) ∧
    (before.length ≠ L → ∃ x, before = [x] ∧ after = List.replicate L x)

/-- Exactly one of the four sequences has length 1 and the other three have length `L`. -/
def OneSingleton (c : ServiceConfig) (L : Nat) : Prop :=
  L ≠ 1 ∧
  ((c.Ports.length = 1 ∧ c.ListenIPs.length = L ∧ c.ListenPorts.length = L
      ∧ c.ListenProtos.length = L) ∨
   (c.Ports.length = L ∧ c.ListenIPs.length = 1 ∧ c.ListenPorts.length = L
      ∧ c.ListenProtos.length = L) ∨
   (c.Ports.length = L ∧ c.ListenIPs.length = L ∧ c.ListenPorts.length = 1
      ∧ c.ListenProtos.length = L) ∨
   (c.Ports.length = L ∧ c.ListenIPs.length = L ∧ c.ListenPorts.length = L
      ∧ c.ListenProtos.length = 1))

/-- Name, ID and Network are all non-empty: `Validate` gets as far as the sequences. -/
def Named (c : ServiceConfig) : Prop :=
  c.Name ≠ "" ∧ c.ID ≠ "" ∧ c.Network ≠ ""

/-- What `Validate` does to one sequence: if its block was reached and the sequence is a
single element, it becomes `L` copies of that element; in every other case it is unchanged. -/
def BroadcastIf {α : Type} (reached : Prop) (L : Nat) (before after : List α) : Prop :=
  (reached → ∀ x, before = [x] → after = List.replicate L x) ∧
    ((¬ reached ∨ before.length ≠ 1) → after = before)

/-! ## Sort keys and sorting (api.go, lines 142-183) -/

/-- Go's `<` on strings: lexicographic comparison of the encoded text. -/
def lexLess : List Char → List Char → Bool
  | [], [] => false
  | [], _ :: _ => true
  | _ :: _, [] => false
  | a :: as, b :: bs =>
    if a.toNat < b.toNat then true
    else if b.toNat < a.toNat then false
    else lexLess as bs

/-- The comparison `s < t` of two Go strings. -/
def stringLess (s t : String) : Bool := lexLess s.toList t.toList

/-- Method `(*Server).SortKey`: `fmt.Sprintf("%s:%d", s.Address, s.Port)`. -/
def Server.SortKey (ipString : IP → String) (s : Server) : String :=
  ipString s.Address ++ ":" ++ toString s.Port

/-- Method `(*Proxy).SortKey`:
`fmt.Sprintf("%s %s:%d/%s", p.Name, p.ListenIP, p.ListenPort, p.ListenProto)`. -/
def Proxy.SortKey (ipString : IP → String) (p : Proxy) : String :=
  p.Name ++ " " ++ ipString p.ListenIP ++ ":" ++ toString p.ListenPort ++ "/"
    ++ Protocol.String p.ListenProto

/-- Method `(*Proxy).IsUDP`. -/
def Proxy.IsUDP (p : Proxy) : Bool := decide (p.ListenProto = ProtocolUDP)

/-- The type of Go's `sort.Slice`, as a function from the `less` closure and the slice to
the sorted slice. -/
abbrev SliceSorter := (α : Type) → (α → α → Bool) → List α → List α

/-- What Go documents of `sort.Slice`: the result is a rearrangement of the slice, and it
is ordered by `less`; here for the `less` closures of this program, which compare a string
key.  Stability is not promised. -/
def SortContract (sortSlice : SliceSorter) : Prop :=
  (∀ (α : Type) (less : α → α → Bool) (xs : List α), (sortSlice α less xs).Perm xs) ∧
  (∀ (α : Type) (key : α → String) (xs : List α),
    (sortSlice α (fun a b => stringLess (key a) (key b)) xs).Pairwise
      (fun a b => key a ≤ key b))

/-- The inner loop of Go's insertion sort,
`for j := i; j > a && less(j, j-1); j-- { swap(j, j-1) }`: the element `x` sinks into the
already sorted prefix, given here last element first. -/
def sinkInto {α : Type} (less : α → α → Bool) (x : α) : List α → List α
  | [] => [x]
  | y :: ys => if less x y then y :: sinkInto less x ys else x :: y :: ys

/-- Go's `insertionSort` (package `sort`), the algorithm `sort.Slice` runs on a short slice
(at most 12 elements; the slices sorted in the examples below have at most 3). -/
def goInsertionSort : SliceSorter := fun _ less xs =>
  (xs.foldl (fun sortedRev x => sinkInto less x sortedRev) []).reverse

/-- Method `(*Proxy).SortServers`. -/
def Proxy.SortServers (sortSlice : SliceSorter) (ipString : IP → String) (p : Proxy) : Proxy :=
  let less := fun (a b : Server) => stringLess (a.SortKey ipString) (b.SortKey ipString)
  { p with Servers := sortSlice Server less p.Servers }

/-- Method `(*NGINXConfig).SortProxies`. -/
def NGINXConfig.SortProxies (sortSlice : SliceSorter) (ipString : IP → String)
    (c : NGINXConfig) : NGINXConfig :=
  let less := fun (a b : Proxy) => stringLess (a.SortKey ipString) (b.SortKey ipString)
  { c with Proxies := sortSlice Proxy less c.Proxies }

/-- Go's `net.IP.String` on IPv4 addresses, in both encodings `net.IP` has for them: four
bytes, or sixteen bytes with the prefix `00 .. 00 ff ff`.  Other values are not rendered
here (`?`). -/
def ipv4String (ip : IP) : String :=
  match ip with
  | [a, b, c, d] => toString a ++ "." ++ toString b ++ "." ++ toString c ++ "." ++ toString d
  | [0, 0, 0, 0, 0, 0, 0, 0, 0, 0, 255, 255, a, b, c, d] =>
    toString a ++ "." ++ toString b ++ "." ++ toString c ++ "." ++ toString d
  | _ => "?"

/-! ## NGINXConfig (api.go, lines 104-134) -/

/-- The endpoint directory `GetServiceAddresses(serviceID, network)` (docker.go), an
external call. -/
abbrev Resolver := String → String → Except String (List IP)

/-- The inner loop of lines 120-125: one `Server` is appended per address. -/
def appendServers (addrs : List IP) (port : Int) (servers : List Server) : List Server :=
  addrs.foldl (fun acc addr => acc ++ [{ Address := addr, Port := port }]) servers

/-- The loop of lines 112-131, started at index `i` with the proxies built so far.
Reading `c.ListenIPs[i]`, `c.ListenPorts[i]` or `c.ListenProtos[i]` past the end panics. -/
def ServiceConfig.proxiesFrom (sortSlice : SliceSorter) (ipString : IP → String)
    (c : ServiceConfig) (addrs : List IP) : Nat → Nat → List Proxy → Except Failure (List Proxy)
  | 0, _, proxies => .ok proxies
  | fuel + 1, i, proxies =>
    if h : i < c.Ports.length then
      match c.ListenIPs[i]?, c.ListenPorts[i]?, c.ListenProtos[i]? with
      | some ip, some lport, some proto =>
        let p : Proxy :=
          { Name := c.Name, ListenIP := ip, ListenPort := lport, ListenProto := proto,
            Servers := [] }
        let p := { p with Servers := appendServers addrs c.Ports[i] p.Servers }
        let p := p.SortServers sortSlice ipString
        ServiceConfig.proxiesFrom sortSlice ipString c addrs fuel (i + 1) (proxies ++ [p])
      | _, _, _ => .error .indexOutOfRange
    else .ok proxies

/-- Method `(*ServiceConfig).NGINXConfig`.  The loop runs `len(c.Ports)` times. -/
def ServiceConfig.NGINXConfig (sortSlice : SliceSorter) (ipString : IP → String)
    (resolver : Resolver) (c : ServiceConfig) : Except Failure NGINXConfig :=
  match resolver c.ID c.Network with
  | .error err =>
    .error (.error ("Error getting service (" ++ c.Name ++ ") addresses: " ++ err))
  | .ok addrs =>
    match ServiceConfig.proxiesFrom sortSlice ipString c addrs c.Ports.length 0 [] with
    | .error f => .error f
    | .ok proxies => .ok { Proxies := proxies }

/-- The proxy `p` is the rule of the declaration `c` at index `i` for the resolved addresses
`addrs`: the name of `c`, the `i`-th listen address, port and protocol, and as servers, up
to order, one `Server` with the `i`-th backend port per address. -/
def RuleAt (c : ServiceConfig) (addrs : List IP) (i : Nat) (p : Proxy) : Prop :=
  p.Name = c.Name ∧ c.ListenIPs[i]? = some p.ListenIP ∧
    c.ListenPorts[i]? = some p.ListenPort ∧ c.ListenProtos[i]? = some p.ListenProto ∧
    ∃ port, c.Ports[i]? = some port ∧
      p.Servers.Perm (addrs.map (fun a => { Address := a, Port := port }))

/-! ## GetNewConfiguration (monitor.go, lines 16-36) -/

/-- The loop of lines 24-31 over the service configurations, before `SortProxies`. -/
def collectProxies (sortSlice : SliceSorter) (ipString : IP → String) (resolver : Resolver) :
    List ServiceConfig → NGINXConfig → Except Failure NGINXConfig
  | [], config => .ok config
  | sc :: rest, config =>
    match sc.NGINXConfig sortSlice ipString resolver with
    | .error (.error err) =>
      .error (.error ("Error converting " ++ sc.Name
        ++ " service configuration to nginx configuration: " ++ err))
    | .error .indexOutOfRange => .error .indexOutOfRange
    | .ok nc =>
      collectProxies sortSlice ipString resolver rest
        { config with Proxies := config.Proxies ++ nc.Proxies }

/-- Function `GetNewConfiguration`.  `services` is what `GetServiceConfigs()` returned
(docker.go), `resolver` the endpoint directory. -/
def GetNewConfiguration (sortSlice : SliceSorter) (ipString : IP → String)
    (services : Except String (List ServiceConfig)) (resolver : Resolver) :
    Except Failure NGINXConfig :=
  match services with
  | .error err => .error (.error ("Error getting docker service configurations: " ++ err))
  | .ok scs =>
    match collectProxies sortSlice ipString resolver scs { Proxies := [] } with
    | .error f => .error f
    | .ok config => .ok (config.SortProxies sortSlice ipString)

/-- Method `(*NGINXConfig).Marshal` (api.go, lines 186-193).  `execute` is
`nginxTmpl.Execute`, the template engine. -/
def NGINXConfig.Marshal (execute : NGINXConfig → Except String Bytes) (c : NGINXConfig) :
    Except String Bytes :=
  match execute c with
  | .error err => .error err
  | .ok buf => .ok buf

/-! ## The monitor (monitor.go, nginx.go) -/

/-- What a run of the monitor does to the outside world, in order. -/
inductive Event where
  | log (line : String)
  | createFile
  | writeFile (config : Bytes)
  | startProcess
  | signalHUP
  deriving DecidableEq

/-- Whether the event touches the configuration file. -/
def Event.isConfigWrite : Event → Bool
  | .createFile => true
  | .writeFile _ => true
  | _ => false

/-- Whether the event is the reload signal. -/
def Event.isReload : Event → Bool
  | .signalHUP => true
  | _ => false

/-- The results of the external calls of one cycle. -/
structure Environment where
  /-- Result of `GetServiceConfigs()`. -/
  services : Except String (List ServiceConfig)
  /-- Function `GetServiceAddresses`. -/
  resolver : Resolver
  /-- Function `json.Marshal` on the configuration. -/
  jsonMarshal : NGINXConfig → Except String String
  /-- Function `nginxTmpl.Execute`. -/
  execute : NGINXConfig → Except String Bytes
  /-- Error of `exec.LookPath("nginx")`, if any. -/
  lookPathErr : Option String
  /-- Error of `os.Create(NGINXConfigPath)`, if any. -/
  createErr : Option String
  /-- Error of `f.Write(config)`, if any. -/
  writeErr : Option String
  /-- Error of `nginx.Start()`, if any. -/
  startErr : Option String
  /-- Error of `n.Process.Signal(syscall.SIGHUP)`, if any. -/
  signalErr : Option String

/-- Constant `NGINXConfigPath`. -/
def NGINXConfigPath : String := "/nginx.conf"

/-- Method `(*NGINX).NewConfig` (nginx.go): the events and the returned error. -/
def NGINX.NewConfig (Debug : Bool) (env : Environment) (config : Bytes) :
    List Event × Option String :=
  match env.createErr with
  | some err => ([.createFile], some ("Error creating " ++ NGINXConfigPath ++ ": " ++ err))
  | none =>
    match env.writeErr with
    | some err =>
      ([.createFile, .writeFile config],
        some ("Error writing " ++ NGINXConfigPath ++ ": " ++ err))
    | none =>
      ([.createFile, .writeFile config]
        ++ (if Debug then
              [Event.log ("DEBUG: wrote " ++ toString config.length ++ " bytes to "
                ++ NGINXConfigPath)]
            else []),
        none)

/-- Method `(*NGINX).Reload` (nginx.go): the events and the returned error. -/
def NGINX.Reload (env : Environment) : List Event × Option String :=
  ([.signalHUP], env.signalErr)

/-- Struct `Monitor`; the process handle `nginx` carries no data of its own here. -/
structure Monitor where
  hash : String
  deriving DecidableEq

/-- How one pass through the body of the loop of `Run` ends. -/
inductive Control where
  /-- The loop goes on to its next iteration (`continue`, or the end of the body). -/
  | next
  /-- Call of `log.Fatalln`: the program exits with status 1. -/
  | fatal
  /-- A run-time panic. -/
  | panic
  deriving DecidableEq

/-- The monitor, the events and the control outcome after a step. -/
structure StepResult where
  monitor : Monitor
  events : List Event
  control : Control
  deriving DecidableEq

/-- One iteration of the loop of `(*Monitor).Run` (monitor.go, lines 99-153), after the
sleep.  `sha256hex` is `fmt.Sprintf("%x", sha256.Sum256(bytes))`. -/
def Monitor.tick (Debug : Bool) (sortSlice : SliceSorter) (ipString : IP → String)
    (sha256hex : Bytes → String) (env : Environment) (m : Monitor) : StepResult :=
  let ev : List Event := if Debug then [.log "DEBUG: polling docker"] else []
  match GetNewConfiguration sortSlice ipString env.services env.resolver with
  | .error .indexOutOfRange => { monitor := m, events := ev, control := .panic }
  | .error (.error err) =>
    { monitor := m,
      events := ev ++ [.log ("WARNING: couldn't generate NGINX configuration: " ++ err)],
      control := .next }
  | .ok config =>
    match env.jsonMarshal config with
    | .error err =>
      { monitor := m,
        events := ev ++ [.log ("ERROR: couldn't marshal NGINX configuration to json: " ++ err)],
        control := .fatal }
    | .ok j =>
      match config.Marshal env.execute with
      | .error err =>
        { monitor := m,
          events := ev ++ [.log ("ERROR: couldn't marshal NGINX configuration: " ++ err)],
          control := .fatal }
      | .ok bytes =>
        let ev := if Debug then ev ++ [.log ("DEBUG: new configuration: " ++ j)] else ev
        let hash := sha256hex bytes
        if hash = m.hash then
          { monitor := m,
            events :=
              if Debug then ev ++ [.log "DEBUG: no configuration change; skipping"] else ev,
            control := .next }
        else
          let ev := if !Debug then ev ++ [.log ("INFO: new configuration: " ++ j)] else ev
          match NGINX.NewConfig Debug env bytes with
          | (wev, some err) =>
            { monitor := m,
              events := ev ++ wev
                ++ [.log ("WARNING: couldn't write NGINX configuration: " ++ err)],
              control := .next }
          | (wev, none) =>
            let ev := ev ++ wev
            let ev :=
              match NGINX.Reload env with
              | (rev, some err) =>
                ev ++ rev ++ [.log ("WARNING: couldn't reload NGINX configuration: " ++ err)]
              | (rev, none) => ev ++ rev
            let ev := if Debug then ev ++ [.log "DEBUG: configuration reloaded"] else ev
            { monitor := { m with hash := hash }, events := ev, control := .next }

/-- The step did nothing to the outside world but log: no write of the configuration file,
no reload signal, the monitor (the stored hash) unchanged, and the loop goes on. -/
def StepResult.Idle (r : StepResult) (m : Monitor) : Prop :=
  r.monitor = m ∧ r.control = .next ∧
    ∀ e ∈ r.events, e.isConfigWrite = false ∧ e.isReload = false

/-- Method `(*Monitor).Run` over the cycles whose environments are listed: the loop stops
only when an iteration ends the program. -/
def Monitor.Run (Debug : Bool) (sortSlice : SliceSorter) (ipString : IP → String)
    (sha256hex : Bytes → String) : List Environment → Monitor → StepResult
  | [], m => { monitor := m, events := [], control := .next }
  | env :: rest, m =>
    let r := m.tick Debug sortSlice ipString sha256hex env
    match r.control with
    | .next =>
      let r2 := Monitor.Run Debug sortSlice ipString sha256hex rest r.monitor
      { monitor := r2.monitor, events := r.events ++ r2.events, control := r2.control }
    | _ => r

/-- Function `NewMonitor` (monitor.go, lines 45-88): the monitor it returns, if the program
gets that far, and the events.  Every returned error ends the program through
`log.Fatalln`; a panic ends it without a log line of the program. -/
def NewMonitor (Debug : Bool) (sortSlice : SliceSorter) (ipString : IP → String)
    (sha256hex : Bytes → String) (env : Environment) : Option Monitor × List Event :=
  match GetNewConfiguration sortSlice ipString env.services env.resolver with
  | .error .indexOutOfRange => (none, [])
  | .error (.error err) =>
    (none, [.log ("ERROR: couldn't generate NGINX configuration: " ++ err)])
  | .ok config =>
    match env.jsonMarshal config with
    | .error err =>
      (none, [.log ("ERROR: couldn't marshal NGINX configuration to json: " ++ err)])
    | .ok j =>
      match config.Marshal env.execute with
      | .error err => (none, [.log ("ERROR: couldn't marshal NGINX configuration: " ++ err)])
      | .ok bytes =>
        let ev : List Event := [.log ("INFO: new configuration: " ++ j)]
        match env.lookPathErr with
        | some err =>
          (none, ev ++ [.log ("ERROR: couldn't create NGINX process: Error finding nginx path: "
            ++ err)])
        | none =>
          match NGINX.NewConfig Debug env bytes with
          | (wev, some err) =>
            (none, ev ++ wev ++ [.log ("ERROR: couldn't write NGINX configuration: " ++ err)])
          | (wev, none) =>
            match env.startErr with
            | some err =>
              (none, ev ++ wev ++ [.startProcess,
                .log ("ERROR: couldn't start NGINX process: " ++ err)])
            | none =>
              (some { hash := sha256hex bytes },
                ev ++ wev ++ [.startProcess, .log "INFO: NGINX started"])

/-! ## Concrete data used to exercise the definitions -/

/-- A declaration that broadcasts its single backend port over three listeners. -/
def sampleDecl : ServiceConfig :=
  { Name := "web", ID := "svc1", Network := "edge", Ports := [80],
    ListenIPs := [[10, 0, 0, 1], [10, 0, 0, 2], [10, 0, 0, 3]],
    ListenPorts := [8080, 8081, 8082],
    ListenProtos := [ProtocolTCP, ProtocolUDP, ProtocolTCP] }

/-- A declaration with one backend port and no listeners at all. -/
def portOnlyDecl : ServiceConfig :=
  { Name := "web", ID := "svc1", Network := "edge", Ports := [80],
    ListenIPs := [], ListenPorts := [], ListenProtos := [] }

/-- A declaration whose listen addresses (two) do not match its listen ports (three). -/
def mismatchedDecl : ServiceConfig :=
  { Name := "web", ID := "svc1", Network := "edge", Ports := [80],
    ListenIPs := [[10, 0, 0, 1], [10, 0, 0, 2]],
    ListenPorts := [8080, 8081, 8082],
    ListenProtos := [ProtocolTCP, ProtocolUDP, ProtocolTCP] }

/-- A declaration of the service `web` with one listener and backend port 80. -/
def declA : ServiceConfig :=
  { Name := "web", ID := "svc1", Network := "edge", Ports := [80],
    ListenIPs := [[10, 0, 0, 1]], ListenPorts := [8080], ListenProtos := [ProtocolTCP] }

/-- A second declaration with the same name and listener as `declA`, and backend port 81. -/
def declB : ServiceConfig :=
  { Name := "web", ID := "svc2", Network := "edge", Ports := [81],
    ListenIPs := [[10, 0, 0, 1]], ListenPorts := [8080], ListenProtos := [ProtocolTCP] }

/-- A declaration of another service. -/
def declC : ServiceConfig :=
  { Name := "api", ID := "svc3", Network := "edge", Ports := [9000, 9001],
    ListenIPs := [[10, 0, 0, 1], [10, 0, 0, 1]], ListenPorts := [443, 444],
    ListenProtos := [ProtocolUDP, ProtocolTCP] }

/-- An endpoint directory with two tasks per service. -/
def twoTasks : Resolver := fun _ _ => .ok [[10, 1, 0, 2], [10, 1, 0, 1]]

/-- The same endpoints as `twoTasks`, listed in the other order. -/
def twoTasksSwapped : Resolver := fun _ _ => .ok [[10, 1, 0, 1], [10, 1, 0, 2]]

/-- An endpoint directory with one task per service. -/
def oneTask : Resolver := fun _ _ => .ok [[10, 1, 0, 1]]

/-- The address 10.1.0.1 in its 4-byte and then its 16-byte encoding. -/
def mixedEncodings : Resolver := fun _ _ =>
  .ok [[10, 1, 0, 1], [0, 0, 0, 0, 0, 0, 0, 0, 0, 0, 255, 255, 10, 1, 0, 1]]

/-- The same two encodings as `mixedEncodings`, listed in the other order. -/
def mixedEncodingsSwapped : Resolver := fun _ _ =>
  .ok [[0, 0, 0, 0, 0, 0, 0, 0, 0, 0, 255, 255, 10, 1, 0, 1], [10, 1, 0, 1]]

/-- The table of `declA` and `declC` with the two tasks of `twoTasks`. -/
def quietTable : NGINXConfig :=
  { Proxies :=
      [⟨"api", [10, 0, 0, 1], 443, 1, [⟨[10, 1, 0, 1], 9000⟩, ⟨[10, 1, 0, 2], 9000⟩]⟩,
       ⟨"api", [10, 0, 0, 1], 444, 0, [⟨[10, 1, 0, 1], 9001⟩, ⟨[10, 1, 0, 2], 9001⟩]⟩,
       ⟨"web", [10, 0, 0, 1], 8080, 0, [⟨[10, 1, 0, 1], 80⟩, ⟨[10, 1, 0, 2], 80⟩]⟩] }

/-- The table of `declA` and `declC` with three tasks. -/
def grownTable : NGINXConfig :=
  { Proxies :=
      [⟨"api", [10, 0, 0, 1], 443, 1,
          [⟨[10, 1, 0, 1], 9000⟩, ⟨[10, 1, 0, 2], 9000⟩, ⟨[10, 1, 0, 3], 9000⟩]⟩,
       ⟨"api", [10, 0, 0, 1], 444, 0,
          [⟨[10, 1, 0, 1], 9001⟩, ⟨[10, 1, 0, 2], 9001⟩, ⟨[10, 1, 0, 3], 9001⟩]⟩,
       ⟨"web", [10, 0, 0, 1], 8080, 0,
          [⟨[10, 1, 0, 1], 80⟩, ⟨[10, 1, 0, 2], 80⟩, ⟨[10, 1, 0, 3], 80⟩]⟩] }

/-- A stand-in for the digest `fmt.Sprintf("%x", sha256.Sum256(bytes))`. -/
def toyDigest (bytes : Bytes) : String :=
  toString (bytes.foldl (fun acc b => (acc * 31 + b) % 65521) 7)

/-- A stand-in for the template engine: one byte per proxy, its number of servers. -/
def toyRender (c : NGINXConfig) : Except String Bytes :=
  .ok (c.Proxies.map (fun p => p.Servers.length))

/-- A cycle in which every external call succeeds. -/
def quietEnv : Environment :=
  { services := .ok [declA, declC], resolver := twoTasks,
    jsonMarshal := fun _ => .ok "\x7b\x7d", execute := toyRender,
    lookPathErr := none, createErr := none, writeErr := none, startErr := none,
    signalErr := none }

/-- The cycle `quietEnv` after one more task has come up, with a reload signal that fails. -/
def grownEnv : Environment :=
  { quietEnv with
    resolver := fun _ _ => .ok [[10, 1, 0, 2], [10, 1, 0, 1], [10, 1, 0, 3]],
    signalErr := some "os: process already finished" }

/-- The cycle `grownEnv` with a configuration file that cannot be created. -/
def readOnlyEnv : Environment :=
  { grownEnv with createErr := some "read-only file system" }

/-- The cycle `quietEnv` with a template engine that fails. -/
def brokenTemplateEnv : Environment :=
  { quietEnv with execute := fun _ => .error "template: nginx: executing" }

/-! ## Properties -/

theorem broadcastFrom_cons {α : Type} (max : Nat) (x : α) :
    ∀ (fuel i : Nat) (t : List α),
      broadcastFrom max fuel i (x :: t) = (x :: t) ++ List.replicate (min fuel (max - i)) x := by
  intro fuel
  induction fuel with
  | zero => intro i t; simp [broadcastFrom]
  | succ n ih =>
    intro i t
    unfold broadcastFrom
    by_cases h : i < max
    · rw [if_pos h]
      simp only [appendFirst]
      rw [show (x :: t) ++ [x] = x :: (t ++ [x]) from rfl, ih]
      have : min (n + 1) (max - i) = min n (max - (i + 1)) + 1 := by omega
      rw [this, List.replicate_succ]
      simp
    · rw [if_neg h]
      have : min (n + 1) (max - i) = 0 := by omega
      simp [this]

theorem broadcast_singleton {α : Type} (max : Nat) (x : α) (h : 1 ≤ max) :
    broadcast max [x] = List.replicate max x := by
  unfold broadcast
  rw [broadcastFrom_cons]
  have : min max (max - 1) = max - 1 := by omega
  rw [this]
  obtain ⟨k, rfl⟩ : ∃ k, max = k + 1 := ⟨max - 1, by omega⟩
  simp [List.replicate_succ]

theorem maxLen_eq (c : ServiceConfig) :
    maxLen c = max (max c.Ports.length c.ListenIPs.length)
      (max c.ListenPorts.length c.ListenProtos.length) := by
  unfold maxLen
  simp only []
  split_ifs <;> omega

/-- What a successful length check returns. -/
theorem checkLen_ok {α : Type} (attr : String) (max : Nat) (xs ys : List α)
    (hle : xs.length ≤ max) (h : checkLen attr max xs = .ok ys) :
    ys.length = max ∧ (xs.length = max → ys = xs) ∧
      (xs.length ≠ max → ∃ x, xs = [x] ∧ ys = List.replicate max x) := by
  unfold checkLen at h
  simp only [] at h
  by_cases h1 : xs.length = 1
  · rw [if_pos h1] at h
    obtain ⟨x, rfl⟩ := List.length_eq_one.mp h1
    have hm : 1 ≤ max := by simpa using hle
    rw [broadcast_singleton max x hm] at h
    injection h with h
    subst h
    refine ⟨by simp, ?_, ?_⟩
    · intro e
      simp only [List.length_singleton] at e
      subst e
      rfl
    · intro _
      exact ⟨x, rfl, rfl⟩
  · rw [if_neg h1] at h
    by_cases h2 : xs.length < max
    · rw [if_pos h2] at h
      cases h
    · rw [if_neg h2] at h
      injection h with h
      subst h
      refine ⟨by omega, fun _ => rfl, fun hne => absurd (by omega) hne⟩

theorem checkLen_error_iff {α : Type} (attr : String) (max : Nat) (xs : List α)
    (hle : xs.length ≤ max) :
    (∃ e, checkLen attr max xs = .error e) ↔ (xs.length ≠ 1 ∧ xs.length ≠ max) := by
  unfold checkLen
  simp only []
  by_cases h1 : xs.length = 1
  · simp [h1]
  · rw [if_neg h1]
    by_cases h2 : xs.length < max
    · rw [if_pos h2]
      simp [h1]
      omega
    · rw [if_neg h2]
      simp
      omega

/-- Every way `Validate` can end, with the receiver it leaves behind. -/
theorem validate_cases (c : ServiceConfig) :
    ((c.Name = "" ∨ c.ID = "" ∨ c.Network = "") ∧ ∃ e, c.Validate = (c, some e)) ∨
    ((c.Name ≠ "" ∧ c.ID ≠ "" ∧ c.Network ≠ "") ∧
      ((∃ e, checkLen "nginx.port" (maxLen c) c.Ports = .error e ∧ c.Validate = (c, some e)) ∨
       (∃ p e, checkLen "nginx.port" (maxLen c) c.Ports = .ok p ∧
          checkLen "nginx.listenIP" (maxLen c) c.ListenIPs = .error e ∧
          c.Validate = ({ c with Ports := p }, some e)) ∨
       (∃ p i e, checkLen "nginx.port" (maxLen c) c.Ports = .ok p ∧
          checkLen "nginx.listenIP" (maxLen c) c.ListenIPs = .ok i ∧
          checkLen "nginx.listenPort" (maxLen c) c.ListenPorts = .error e ∧
          c.Validate = ({ c with Ports := p, ListenIPs := i }, some e)) ∨
       (∃ p i l e, checkLen "nginx.port" (maxLen c) c.Ports = .ok p ∧
          checkLen "nginx.listenIP" (maxLen c) c.ListenIPs = .ok i ∧
          checkLen "nginx.listenPort" (maxLen c) c.ListenPorts = .ok l ∧
          checkLen "nginx.listenProto" (maxLen c) c.ListenProtos = .error e ∧
          c.Validate = ({ c with Ports := p, ListenIPs := i, ListenPorts := l }, some e)) ∨
       (∃ p i l q, checkLen "nginx.port" (maxLen c) c.Ports = .ok p ∧
          checkLen "nginx.listenIP" (maxLen c) c.ListenIPs = .ok i ∧
          checkLen "nginx.listenPort" (maxLen c) c.ListenPorts = .ok l ∧
          checkLen "nginx.listenProto" (maxLen c) c.ListenProtos = .ok q ∧
          c.Validate =
            ({ c with Ports := p, ListenIPs := i, ListenPorts := l, ListenProtos := q },
              none)))) := by
  unfold ServiceConfig.Validate
  by_cases hn : c.Name = ""
  · left; exact ⟨Or.inl hn, _, by rw [if_pos hn]⟩
  by_cases hi : c.ID = ""
  · left; exact ⟨Or.inr (Or.inl hi), _, by rw [if_neg hn, if_pos hi]⟩
  by_cases hw : c.Network = ""
  · left; exact ⟨Or.inr (Or.inr hw), _, by rw [if_neg hn, if_neg hi, if_pos hw]⟩
  right
  refine ⟨⟨hn, hi, hw⟩, ?_⟩
  rw [if_neg hn, if_neg hi, if_neg hw]
  simp only []
  rcases hP : checkLen "nginx.port" (maxLen c) c.Ports with e | p
  · left; exact ⟨e, rfl, rfl⟩
  right
  rcases hI : checkLen "nginx.listenIP" (maxLen c) c.ListenIPs with e | i
  · left; exact ⟨p, e, rfl, rfl, rfl⟩
  right
  rcases hL : checkLen "nginx.listenPort" (maxLen c) c.ListenPorts with e | l
  · left; exact ⟨p, i, e, rfl, rfl, rfl, rfl⟩
  right
  rcases hQ : checkLen "nginx.listenProto" (maxLen c) c.ListenProtos with e | q
  · left; exact ⟨p, i, l, e, rfl, rfl, rfl, rfl, rfl⟩
  right
  exact ⟨p, i, l, q, rfl, rfl, rfl, rfl, rfl⟩

theorem maxLen_bounds (c : ServiceConfig) :
    c.Ports.length ≤ maxLen c ∧ c.ListenIPs.length ≤ maxLen c ∧
      c.ListenPorts.length ≤ maxLen c ∧ c.ListenProtos.length ≤ maxLen c := by
  rw [maxLen_eq]
  omega

theorem checkLen_ok_normalized {α : Type} (attr : String) (max : Nat) (xs ys : List α)
    (hle : xs.length ≤ max) (h : checkLen attr max xs = .ok ys) : NormalizedTo max xs ys :=
  checkLen_ok attr max xs ys hle h

theorem checkLen_not_offending {α : Type} (attr : String) (max : Nat) (xs ys : List α)
    (hle : xs.length ≤ max) (h : checkLen attr max xs = .ok ys) : ¬ Offending max xs := by
  intro ho
  obtain ⟨e, he⟩ := (checkLen_error_iff attr max xs hle).mpr ho
  rw [h] at he
  cases he

theorem checkLen_offending {α : Type} (attr : String) (max : Nat) (xs : List α) (e : String)
    (hle : xs.length ≤ max) (h : checkLen attr max xs = .error e) : Offending max xs :=
  (checkLen_error_iff attr max xs hle).mp ⟨e, h⟩

theorem validate_none_normalized (c : ServiceConfig) (h : c.Validate.2 = none) :
    NormalizedTo (commonLength c) c.Ports c.Validate.1.Ports ∧
    NormalizedTo (commonLength c) c.ListenIPs c.Validate.1.ListenIPs ∧
    NormalizedTo (commonLength c) c.ListenPorts c.Validate.1.ListenPorts ∧
    NormalizedTo (commonLength c) c.ListenProtos c.Validate.1.ListenProtos := by
  have hb := maxLen_bounds c
  have hm : maxLen c = commonLength c := maxLen_eq c
  rcases validate_cases c with ⟨_, e, he⟩ | ⟨_, hc⟩
  · rw [he] at h; cases h
  rcases hc with ⟨e, _, he⟩ | ⟨p, e, _, _, he⟩ | ⟨p, i, e, _, _, _, he⟩ |
    ⟨p, i, l, e, _, _, _, _, he⟩ | ⟨p, i, l, q, hp, hi, hl, hq, he⟩
  · rw [he] at h; cases h
  · rw [he] at h; cases h
  · rw [he] at h; cases h
  · rw [he] at h; cases h
  rw [he, ← hm]
  exact ⟨checkLen_ok_normalized _ _ _ _ hb.1 hp, checkLen_ok_normalized _ _ _ _ hb.2.1 hi,
    checkLen_ok_normalized _ _ _ _ hb.2.2.1 hl, checkLen_ok_normalized _ _ _ _ hb.2.2.2 hq⟩

theorem validate_error_iff (c : ServiceConfig) :
    c.Validate.2 ≠ none ↔
      (c.Name = "" ∨ c.ID = "" ∨ c.Network = "" ∨
        Offending (commonLength c) c.Ports ∨ Offending (commonLength c) c.ListenIPs ∨
        Offending (commonLength c) c.ListenPorts ∨ Offending (commonLength c) c.ListenProtos) := by
  have hb := maxLen_bounds c
  have hm : maxLen c = commonLength c := maxLen_eq c
  rw [← hm]
  rcases validate_cases c with ⟨hname, e, he⟩ | ⟨⟨hn, hi, hw⟩, hc⟩
  · rw [he]
    constructor
    · intro _
      rcases hname with h | h | h
      · exact Or.inl h
      · exact Or.inr (Or.inl h)
      · exact Or.inr (Or.inr (Or.inl h))
    · intro _; simp
  rcases hc with ⟨e, hp, he⟩ | ⟨p, e, hp, hi', he⟩ | ⟨p, i, e, hp, hi', hl, he⟩ |
    ⟨p, i, l, e, hp, hi', hl, hq, he⟩ | ⟨p, i, l, q, hp, hi', hl, hq, he⟩
  · rw [he]
    exact ⟨fun _ => Or.inr (Or.inr (Or.inr (Or.inl (checkLen_offending _ _ _ _ hb.1 hp)))),
      fun _ => by simp⟩
  · rw [he]
    exact ⟨fun _ => Or.inr (Or.inr (Or.inr (Or.inr (Or.inl
      (checkLen_offending _ _ _ _ hb.2.1 hi'))))), fun _ => by simp⟩
  · rw [he]
    exact ⟨fun _ => Or.inr (Or.inr (Or.inr (Or.inr (Or.inr (Or.inl
      (checkLen_offending _ _ _ _ hb.2.2.1 hl)))))), fun _ => by simp⟩
  · rw [he]
    exact ⟨fun _ => Or.inr (Or.inr (Or.inr (Or.inr (Or.inr (Or.inr
      (checkLen_offending _ _ _ _ hb.2.2.2 hq)))))), fun _ => by simp⟩
  · rw [he]
    constructor
    · intro h; exact absurd rfl h
    · intro h
      rcases h with h | h | h | h | h | h | h
      · exact absurd h hn
      · exact absurd h hi
      · exact absurd h hw
      · exact absurd h (checkLen_not_offending _ _ _ _ hb.1 hp)
      · exact absurd h (checkLen_not_offending _ _ _ _ hb.2.1 hi')
      · exact absurd h (checkLen_not_offending _ _ _ _ hb.2.2.1 hl)
      · exact absurd h (checkLen_not_offending _ _ _ _ hb.2.2.2 hq)

theorem validate_all_empty (c : ServiceConfig) (hn : c.Name ≠ "") (hi : c.ID ≠ "")
    (hw : c.Network ≠ "") (h1 : c.Ports = []) (h2 : c.ListenIPs = [])
    (h3 : c.ListenPorts = []) (h4 : c.ListenProtos = []) : c.Validate = (c, none) := by
  have hnone : c.Validate.2 = none := by
    by_contra hne
    rcases (validate_error_iff c).mp hne with h | h | h | h | h | h | h
    · exact hn h
    · exact hi h
    · exact hw h
    all_goals
      simp [Offending, commonLength, h1, h2, h3, h4] at h
  have hnorm := validate_none_normalized c hnone
  have hL : commonLength c = 0 := by simp [commonLength, h1, h2, h3, h4]
  rw [hL] at hnorm
  obtain ⟨⟨a1, _⟩, ⟨a2, _⟩, ⟨a3, _⟩, ⟨a4, _⟩⟩ := hnorm
  rcases validate_cases c with ⟨_, e, he⟩ | ⟨_, hc⟩
  · rw [he] at hnone; cases hnone
  rcases hc with ⟨e, _, he⟩ | ⟨p, e, _, _, he⟩ | ⟨p, i, e, _, _, _, he⟩ |
    ⟨p, i, l, e, _, _, _, _, he⟩ | ⟨p, i, l, q, hp, hi, hl, hq, he⟩
  · rw [he] at hnone; cases hnone
  · rw [he] at hnone; cases hnone
  · rw [he] at hnone; cases hnone
  · rw [he] at hnone; cases hnone
  rw [he] at a1 a2 a3 a4 ⊢
  simp only [List.length_eq_zero] at a1 a2 a3 a4
  subst a1 a2 a3 a4
  cases c
  simp only at h1 h2 h3 h4
  subst h1 h2 h3 h4
  rfl

theorem broadcastIf_same {α : Type} (reached : Prop) (L : Nat) (xs : List α)
    (h : reached → xs.length ≠ 1) : BroadcastIf reached L xs xs := by
  refine ⟨fun hr x hx => ?_, fun _ => rfl⟩
  exact absurd (by rw [hx]; rfl) (h hr)

theorem broadcastIf_checked {α : Type} (reached : Prop) (hr : reached) (attr : String) (L : Nat)
    (xs ys : List α) (hle : xs.length ≤ L) (h : checkLen attr L xs = .ok ys) :
    BroadcastIf reached L xs ys := by
  obtain ⟨_, h2, h3⟩ := checkLen_ok attr L xs ys hle h
  constructor
  · intro _ x hx
    by_cases hl : xs.length = L
    · rw [h2 hl, hx]
      rw [hx] at hl
      simp only [List.length_singleton] at hl
      rw [← hl]
      rfl
    · obtain ⟨y, hy, hys⟩ := h3 hl
      rw [hx] at hy
      injection hy with hy _
      rw [hys, hy]
  · intro hc
    rcases hc with hc | hc
    · exact absurd hr hc
    · by_cases hl : xs.length = L
      · exact h2 hl
      · obtain ⟨y, hy, _⟩ := h3 hl
        rw [hy] at hc
        exact absurd rfl hc

/-- C1. When `Validate` returns nil, the four sequences all have the length `L`, the maximum of
the four lengths before the call; each one is the original sequence if that had length `L`,
and otherwise `L` copies of its single original element. -/
theorem validate_accepts_normalized (c : ServiceConfig) (h : c.Validate.2 = none) :
    NormalizedTo (commonLength c) c.Ports c.Validate.1.Ports ∧
    NormalizedTo (commonLength c) c.ListenIPs c.Validate.1.ListenIPs ∧
    NormalizedTo (commonLength c) c.ListenPorts c.Validate.1.ListenPorts ∧
    NormalizedTo (commonLength c) c.ListenProtos c.Validate.1.ListenProtos :=
  validate_none_normalized c h

/-- Witness of C1: the sample declaration is accepted and normalized to length 3. -/
theorem validate_accepts_normalized_witness :
    sampleDecl.Validate.2 = none ∧
    (NormalizedTo (commonLength sampleDecl) sampleDecl.Ports sampleDecl.Validate.1.Ports ∧
    NormalizedTo (commonLength sampleDecl) sampleDecl.ListenIPs sampleDecl.Validate.1.ListenIPs ∧
    NormalizedTo (commonLength sampleDecl) sampleDecl.ListenPorts
      sampleDecl.Validate.1.ListenPorts ∧
    NormalizedTo (commonLength sampleDecl) sampleDecl.ListenProtos
      sampleDecl.Validate.1.ListenProtos) :=
  ⟨by decide, validate_accepts_normalized sampleDecl (by decide)⟩

/-- C2. `Validate` returns an error exactly when Name, ID or Network is empty, or one of the
four sequences has a length that is neither 1 nor `L`, the maximum of the four lengths; a
declaration with non-empty Name, ID and Network and four empty sequences is accepted. -/
theorem validate_rejects_iff (c : ServiceConfig) :
    (c.Validate.2 ≠ none ↔
      (c.Name = "" ∨ c.ID = "" ∨ c.Network = "" ∨
        Offending (commonLength c) c.Ports ∨ Offending (commonLength c) c.ListenIPs ∨
        Offending (commonLength c) c.ListenPorts ∨ Offending (commonLength c) c.ListenProtos)) ∧
    (c.Name ≠ "" → c.ID ≠ "" → c.Network ≠ "" → c.Ports = [] → c.ListenIPs = [] →
      c.ListenPorts = [] → c.ListenProtos = [] → c.Validate = (c, none)) :=
  ⟨validate_error_iff c, validate_all_empty c⟩

/-- Witness of C2: the sample declaration, and the declaration with four empty sequences. -/
theorem validate_rejects_iff_witness :
    (sampleDecl.Validate.2 ≠ none ↔
      (sampleDecl.Name = "" ∨ sampleDecl.ID = "" ∨ sampleDecl.Network = "" ∨
        Offending (commonLength sampleDecl) sampleDecl.Ports ∨
        Offending (commonLength sampleDecl) sampleDecl.ListenIPs ∨
        Offending (commonLength sampleDecl) sampleDecl.ListenPorts ∨
        Offending (commonLength sampleDecl) sampleDecl.ListenProtos)) ∧
    ServiceConfig.Validate ⟨"web", "svc1", "edge", [], [], [], []⟩
      = (⟨"web", "svc1", "edge", [], [], [], []⟩, none) :=
  ⟨(validate_rejects_iff sampleDecl).1,
    (validate_rejects_iff ⟨"web", "svc1", "edge", [], [], [], []⟩).2
      (by decide) (by decide) (by decide) rfl rfl rfl rfl⟩

/-- C8 as stated fails: one backend port and three empty sequences (`L = 0`) is rejected. -/
theorem broadcast_claim_fails_at_zero :
    Named portOnlyDecl ∧ OneSingleton portOnlyDecl 0 ∧ portOnlyDecl.Validate.2 ≠ none := by
  refine ⟨by unfold Named; decide, by unfold OneSingleton; decide, by decide⟩

/-- C8, amended. If Name, ID and Network are non-empty, exactly one of the four sequences has
length 1 and the other three share a length `L` of at least 2, then `Validate` succeeds, the
four sequences have length `L` afterwards, the singleton has become `L` copies of its
element and the other three are unchanged. -/
theorem validate_broadcasts_singleton (c : ServiceConfig) (L : Nat) (hn : Named c)
    (h1 : OneSingleton c L) (hL : 2 ≤ L) :
    c.Validate.2 = none ∧
    (c.Validate.1.Ports.length = L ∧ c.Validate.1.ListenIPs.length = L ∧
      c.Validate.1.ListenPorts.length = L ∧ c.Validate.1.ListenProtos.length = L) ∧
    ((c.Ports.length = 1 → ∃ x, c.Ports = [x] ∧ c.Validate.1.Ports = List.replicate L x) ∧
      (c.Ports.length = L → c.Validate.1.Ports = c.Ports)) ∧
    ((c.ListenIPs.length = 1 →
        ∃ x, c.ListenIPs = [x] ∧ c.Validate.1.ListenIPs = List.replicate L x) ∧
      (c.ListenIPs.length = L → c.Validate.1.ListenIPs = c.ListenIPs)) ∧
    ((c.ListenPorts.length = 1 →
        ∃ x, c.ListenPorts = [x] ∧ c.Validate.1.ListenPorts = List.replicate L x) ∧
      (c.ListenPorts.length = L → c.Validate.1.ListenPorts = c.ListenPorts)) ∧
    ((c.ListenProtos.length = 1 →
        ∃ x, c.ListenProtos = [x] ∧ c.Validate.1.ListenProtos = List.replicate L x) ∧
      (c.ListenProtos.length = L → c.Validate.1.ListenProtos = c.ListenProtos)) := by
  obtain ⟨hL1, hcases⟩ := h1
  have hcl : commonLength c = L := by
    unfold commonLength
    rcases hcases with ⟨a, b, d, e⟩ | ⟨a, b, d, e⟩ | ⟨a, b, d, e⟩ | ⟨a, b, d, e⟩ <;>
      rw [a, b, d, e] <;> omega
  have hnone : c.Validate.2 = none := by
    by_contra hne
    obtain ⟨n1, n2, n3⟩ := hn
    have hne := (validate_error_iff c).mp hne
    rw [hcl] at hne
    unfold Offending at hne
    rcases hcases with ⟨a, b, d, e⟩ | ⟨a, b, d, e⟩ | ⟨a, b, d, e⟩ | ⟨a, b, d, e⟩ <;>
      rw [a, b, d, e] at hne <;> simp [n1, n2, n3] at hne
  obtain ⟨⟨p1, p2, p3⟩, ⟨i1, i2, i3⟩, ⟨l1, l2, l3⟩, ⟨q1, q2, q3⟩⟩ :=
    validate_none_normalized c hnone
  rw [hcl] at p1 p2 p3 i1 i2 i3 l1 l2 l3 q1 q2 q3
  refine ⟨hnone, ⟨p1, i1, l1, q1⟩, ⟨fun h => p3 (by omega), p2⟩, ⟨fun h => i3 (by omega), i2⟩,
    ⟨fun h => l3 (by omega), l2⟩, ⟨fun h => q3 (by omega), q2⟩⟩

/-- Witness of C8: one backend port broadcast over three listeners. -/
theorem validate_broadcasts_singleton_witness :
    sampleDecl.Validate.2 = none ∧ sampleDecl.Validate.1.Ports = [80, 80, 80] ∧
      sampleDecl.Validate.1.ListenPorts = sampleDecl.ListenPorts := by
  have h := validate_broadcasts_singleton sampleDecl 3 (by unfold Named; decide)
    (by unfold OneSingleton; decide) (by decide)
  exact ⟨h.1, by decide, h.2.2.2.2.1.2 (by decide)⟩

/-- C10 as stated fails: the rejected declaration comes back with its Ports broadcast. -/
theorem validate_rejection_mutates :
    mismatchedDecl.Validate.2 ≠ none ∧ mismatchedDecl.Validate.1.Ports = [80, 80, 80] ∧
      mismatchedDecl.Validate.1.Ports ≠ mismatchedDecl.Ports := by
  decide

/-- C10, amended. On a declaration that `Validate` rejects, Name, ID, Network and
ListenProtos are what they were before the call; each of Ports, ListenIPs and ListenPorts
is what it was before, except that a sequence of a single element whose block was reached
(Name, ID and Network non-empty, and no earlier sequence of a length other than 1 and `L`)
has become `L` copies of that element. -/
theorem validate_rejection_frame (c : ServiceConfig) (h : c.Validate.2 ≠ none) :
    c.Validate.1.Name = c.Name ∧ c.Validate.1.ID = c.ID ∧ c.Validate.1.Network = c.Network ∧
    c.Validate.1.ListenProtos = c.ListenProtos ∧
    BroadcastIf (Named c) (commonLength c) c.Ports c.Validate.1.Ports ∧
    BroadcastIf (Named c ∧ ¬ Offending (commonLength c) c.Ports) (commonLength c)
      c.ListenIPs c.Validate.1.ListenIPs ∧
    BroadcastIf (Named c ∧ ¬ Offending (commonLength c) c.Ports
        ∧ ¬ Offending (commonLength c) c.ListenIPs) (commonLength c)
      c.ListenPorts c.Validate.1.ListenPorts := by
  have hb := maxLen_bounds c
  have hm : maxLen c = commonLength c := maxLen_eq c
  rw [← hm]
  rcases validate_cases c with ⟨hname, e, he⟩ | ⟨hn, hc⟩
  · have hnn : ¬ Named c := by
      rintro ⟨n1, n2, n3⟩
      rcases hname with x | x | x
      · exact n1 x
      · exact n2 x
      · exact n3 x
    rw [he]
    exact ⟨rfl, rfl, rfl, rfl, broadcastIf_same _ _ _ (fun hr => absurd hr hnn),
      broadcastIf_same _ _ _ (fun hr => absurd hr.1 hnn),
      broadcastIf_same _ _ _ (fun hr => absurd hr.1 hnn)⟩
  rcases hc with ⟨e, hp, he⟩ | ⟨p, e, hp, hi, he⟩ | ⟨p, i, e, hp, hi, hl, he⟩ |
    ⟨p, i, l, e, hp, hi, hl, hq, he⟩ | ⟨p, i, l, q, hp, hi, hl, hq, he⟩
  · have ho := checkLen_offending _ _ _ _ hb.1 hp
    rw [he]
    exact ⟨rfl, rfl, rfl, rfl, broadcastIf_same _ _ _ (fun _ => ho.1),
      broadcastIf_same _ _ _ (fun hr => absurd ho hr.2),
      broadcastIf_same _ _ _ (fun hr => absurd ho hr.2.1)⟩
  · have ho := checkLen_offending _ _ _ _ hb.2.1 hi
    rw [he]
    exact ⟨rfl, rfl, rfl, rfl, broadcastIf_checked _ hn _ _ _ _ hb.1 hp,
      broadcastIf_same _ _ _ (fun _ => ho.1),
      broadcastIf_same _ _ _ (fun hr => absurd ho hr.2.2)⟩
  · have ho := checkLen_offending _ _ _ _ hb.2.2.1 hl
    have np := checkLen_not_offending _ _ _ _ hb.1 hp
    rw [he]
    exact ⟨rfl, rfl, rfl, rfl, broadcastIf_checked _ hn _ _ _ _ hb.1 hp,
      broadcastIf_checked _ ⟨hn, np⟩ _ _ _ _ hb.2.1 hi,
      broadcastIf_same _ _ _ (fun _ => ho.1)⟩
  · have np := checkLen_not_offending _ _ _ _ hb.1 hp
    have ni := checkLen_not_offending _ _ _ _ hb.2.1 hi
    rw [he]
    exact ⟨rfl, rfl, rfl, rfl, broadcastIf_checked _ hn _ _ _ _ hb.1 hp,
      broadcastIf_checked _ ⟨hn, np⟩ _ _ _ _ hb.2.1 hi,
      broadcastIf_checked _ ⟨hn, np, ni⟩ _ _ _ _ hb.2.2.1 hl⟩
  · rw [he] at h
    exact absurd rfl h

/-- Witness of the amended C10 on the mismatched declaration. -/
theorem validate_rejection_frame_witness :
    mismatchedDecl.Validate.2 ≠ none ∧
      mismatchedDecl.Validate.1.ListenProtos = mismatchedDecl.ListenProtos ∧
      mismatchedDecl.Validate.1.ListenIPs = mismatchedDecl.ListenIPs := by
  have h := validate_rejection_frame mismatchedDecl (by decide)
  exact ⟨by decide, h.2.2.2.1, h.2.2.2.2.2.1.2 (Or.inr (by decide))⟩

theorem char_toNat_lt (a b : Char) : a.toNat < b.toNat ↔ a < b := by
  rw [Char.lt_def]
  exact Iff.rfl

theorem lexLess_iff (l₁ l₂ : List Char) : lexLess l₁ l₂ = true ↔ l₁ < l₂ := by
  induction l₁ generalizing l₂ with
  | nil =>
    cases l₂ with
    | nil => simp [lexLess]
    | cons b bs =>
      simp only [lexLess, true_iff]
      exact List.Lex.nil
  | cons a as ih =>
    cases l₂ with
    | nil => simp [lexLess]
    | cons b bs =>
      unfold lexLess
      by_cases h1 : a.toNat < b.toNat
      · rw [if_pos h1]
        simp only [true_iff]
        exact List.Lex.rel ((char_toNat_lt a b).mp h1)
      · rw [if_neg h1]
        by_cases h2 : b.toNat < a.toNat
        · rw [if_pos h2]
          simp only [Bool.false_eq_true, false_iff]
          intro h
          have hba : b < a := (char_toNat_lt b a).mp h2
          cases h with
          | cons h => exact lt_irrefl _ hba
          | rel h => exact lt_asymm h hba
        · rw [if_neg h2, ih]
          have hab : a = b :=
            le_antisymm (not_lt.mp (fun h' => h2 ((char_toNat_lt b a).mpr h')))
              (not_lt.mp (fun h' => h1 ((char_toNat_lt a b).mpr h')))
          subst hab
          constructor
          · intro h
            exact List.Lex.cons h
          · intro h
            cases h with
            | cons h => exact h
            | rel h => exact absurd h (lt_irrefl _)

/-- The comparison of the model is the order of strings. -/
theorem stringLess_iff (s t : String) : stringLess s t = true ↔ s < t := by
  unfold stringLess
  rw [lexLess_iff, String.lt_iff_toList_lt]

theorem stringLess_false_iff (s t : String) : stringLess s t = false ↔ t ≤ s := by
  rw [← not_lt, ← stringLess_iff]
  simp

theorem sinkInto_perm {α : Type} (less : α → α → Bool) (x : α) (l : List α) :
    (sinkInto less x l).Perm (x :: l) := by
  induction l with
  | nil => exact List.Perm.refl _
  | cons y ys ih =>
    unfold sinkInto
    by_cases h : less x y = true
    · rw [if_pos h]
      exact (List.Perm.cons y ih).trans (List.Perm.swap x y ys)
    · rw [if_neg h]

theorem foldl_sinkInto_perm {α : Type} (less : α → α → Bool) (xs acc : List α) :
    (xs.foldl (fun sortedRev x => sinkInto less x sortedRev) acc).Perm (xs ++ acc) := by
  induction xs generalizing acc with
  | nil => exact List.Perm.refl _
  | cons x xs ih =>
    simp only [List.foldl_cons]
    refine (ih _).trans ?_
    refine (List.Perm.append_left xs (sinkInto_perm less x acc)).trans ?_
    simp only [List.cons_append]
    exact List.perm_middle

theorem sinkInto_sorted {α : Type} (key : α → String) (x : α) (l : List α)
    (h : l.Pairwise (fun a b => key b ≤ key a)) :
    (sinkInto (fun a b => stringLess (key a) (key b)) x l).Pairwise
      (fun a b => key b ≤ key a) := by
  induction l with
  | nil => simp [sinkInto]
  | cons y ys ih =>
    unfold sinkInto
    rw [List.pairwise_cons] at h
    by_cases hxy : stringLess (key x) (key y) = true
    · rw [if_pos hxy]
      rw [List.pairwise_cons]
      refine ⟨?_, ih h.2⟩
      intro z hz
      have hz' := (List.Perm.mem_iff (sinkInto_perm _ x ys)).mp hz
      rw [List.mem_cons] at hz'
      rcases hz' with rfl | hz'
      · exact le_of_lt ((stringLess_iff _ _).mp hxy)
      · exact h.1 z hz'
    · rw [if_neg hxy]
      have hyx : key y ≤ key x := (stringLess_false_iff _ _).mp (by simpa using hxy)
      rw [List.pairwise_cons]
      refine ⟨?_, List.pairwise_cons.mpr h⟩
      intro z hz
      rw [List.mem_cons] at hz
      rcases hz with rfl | hz
      · exact hyx
      · exact le_trans (h.1 z hz) hyx

theorem foldl_sinkInto_sorted {α : Type} (key : α → String) (xs acc : List α)
    (h : acc.Pairwise (fun a b => key b ≤ key a)) :
    (xs.foldl (fun sortedRev x => sinkInto (fun a b => stringLess (key a) (key b)) x sortedRev)
      acc).Pairwise (fun a b => key b ≤ key a) := by
  induction xs generalizing acc with
  | nil => exact h
  | cons x xs ih =>
    simp only [List.foldl_cons]
    exact ih _ (sinkInto_sorted key x acc h)

/-- Go's insertion sort meets the contract of `sort.Slice`. -/
theorem goInsertionSort_contract : SortContract goInsertionSort := by
  constructor
  · intro α less xs
    unfold goInsertionSort
    refine (List.reverse_perm _).trans ?_
    simpa using foldl_sinkInto_perm less xs []
  · intro α key xs
    unfold goInsertionSort
    rw [List.pairwise_reverse]
    exact foldl_sinkInto_sorted key xs [] List.Pairwise.nil

theorem appendServers_eq (addrs : List IP) (port : Int) (servers : List Server) :
    appendServers addrs port servers
      = servers ++ addrs.map (fun a => { Address := a, Port := port }) := by
  unfold appendServers
  induction addrs generalizing servers with
  | nil => simp
  | cons a as ih =>
    simp only [List.foldl_cons, List.map_cons]
    rw [ih]
    simp

theorem proxiesFrom_spec (sortSlice : SliceSorter) (ipString : IP → String)
    (c : ServiceConfig) (addrs : List IP)
    (hI : c.ListenIPs.length = c.Ports.length) (hL : c.ListenPorts.length = c.Ports.length)
    (hQ : c.ListenProtos.length = c.Ports.length) :
    ∀ (fuel i : Nat) (acc : List Proxy), c.Ports.length - i ≤ fuel →
      ∃ ps, ServiceConfig.proxiesFrom sortSlice ipString c addrs fuel i acc = .ok (acc ++ ps) ∧
        ps.length = c.Ports.length - i ∧
        ∀ k, k < c.Ports.length - i → ∃ p, ps[k]? = some p ∧
          p.Name = c.Name ∧ c.ListenIPs[i + k]? = some p.ListenIP ∧
          c.ListenPorts[i + k]? = some p.ListenPort ∧
          c.ListenProtos[i + k]? = some p.ListenProto ∧
          ∃ port, c.Ports[i + k]? = some port ∧
            p.Servers = sortSlice Server
              (fun a b => stringLess (a.SortKey ipString) (b.SortKey ipString))
              (appendServers addrs port []) := by
  intro fuel
  induction fuel with
  | zero =>
    intro i acc hf
    refine ⟨[], by simp [ServiceConfig.proxiesFrom], by simp; omega, ?_⟩
    intro k hk
    omega
  | succ n ih =>
    intro i acc hf
    unfold ServiceConfig.proxiesFrom
    by_cases h : i < c.Ports.length
    · rw [dif_pos h]
      have h1 : i < c.ListenIPs.length := by omega
      have h2 : i < c.ListenPorts.length := by omega
      have h3 : i < c.ListenProtos.length := by omega
      rw [List.getElem?_eq_getElem h1, List.getElem?_eq_getElem h2,
        List.getElem?_eq_getElem h3]
      simp only []
      obtain ⟨ps, hps, hlen, hall⟩ := ih (i + 1) (acc ++
        [Proxy.SortServers sortSlice ipString
          { Name := c.Name, ListenIP := c.ListenIPs[i], ListenPort := c.ListenPorts[i],
            ListenProto := c.ListenProtos[i],
            Servers := appendServers addrs c.Ports[i] [] }]) (by omega)
      refine ⟨Proxy.SortServers sortSlice ipString
          { Name := c.Name, ListenIP := c.ListenIPs[i], ListenPort := c.ListenPorts[i],
            ListenProto := c.ListenProtos[i],
            Servers := appendServers addrs c.Ports[i] [] } :: ps, ?_, ?_, ?_⟩
      · rw [hps]
        simp
      · simp only [List.length_cons]
        omega
      · intro k hk
        cases k with
        | zero =>
          refine ⟨Proxy.SortServers sortSlice ipString
            { Name := c.Name, ListenIP := c.ListenIPs[i], ListenPort := c.ListenPorts[i],
              ListenProto := c.ListenProtos[i],
              Servers := appendServers addrs c.Ports[i] [] }, by simp, rfl, ?_, ?_, ?_,
            c.Ports[i], ?_, rfl⟩
          · simp [List.getElem?_eq_getElem h1, Proxy.SortServers]
          · simp [List.getElem?_eq_getElem h2, Proxy.SortServers]
          · simp [List.getElem?_eq_getElem h3, Proxy.SortServers]
          · simp [List.getElem?_eq_getElem h]
        | succ k =>
          obtain ⟨p, hp, hrest⟩ := hall k (by omega)
          refine ⟨p, by simpa using hp, ?_⟩
          have e : i + (k + 1) = i + 1 + k := by omega
          rw [e]
          exact hrest
    · rw [dif_neg h]
      refine ⟨[], by simp, by simp; omega, ?_⟩
      intro k hk
      omega

/-- Every proxy the loop adds has the name of the declaration and sorted servers built from
one backend port of the declaration. -/
theorem proxiesFrom_mem (sortSlice : SliceSorter) (ipString : IP → String)
    (c : ServiceConfig) (addrs : List IP) :
    ∀ (fuel i : Nat) (acc ps : List Proxy),
      ServiceConfig.proxiesFrom sortSlice ipString c addrs fuel i acc = .ok ps →
      ∀ p ∈ ps, p ∈ acc ∨ ∃ port, port ∈ c.Ports ∧
        p.Servers = sortSlice Server
          (fun a b => stringLess (a.SortKey ipString) (b.SortKey ipString))
          (appendServers addrs port []) := by
  intro fuel
  induction fuel with
  | zero =>
    intro i acc ps h p hp
    simp only [ServiceConfig.proxiesFrom] at h
    injection h with h
    subst h
    exact Or.inl hp
  | succ n ih =>
    intro i acc ps h p hp
    unfold ServiceConfig.proxiesFrom at h
    by_cases hi : i < c.Ports.length
    · rw [dif_pos hi] at h
      split at h
      · rcases ih _ _ _ h p hp with hm | hm
        · rw [List.mem_append, List.mem_singleton] at hm
          rcases hm with hm | hm
          · exact Or.inl hm
          · right
            refine ⟨c.Ports[i], List.getElem_mem hi, ?_⟩
            rw [hm]
            rfl
        · exact Or.inr hm
      · cases h
    · rw [dif_neg hi] at h
      injection h with h
      subst h
      exact Or.inl hp

/-- The loop depends on the resolved addresses only through the sorted server lists. -/
theorem proxiesFrom_congr (sortSlice : SliceSorter) (ipString : IP → String)
    (c : ServiceConfig) (addrs₁ addrs₂ : List IP)
    (hsame : ∀ port,
      sortSlice Server (fun a b => stringLess (a.SortKey ipString) (b.SortKey ipString))
          (appendServers addrs₁ port [])
        = sortSlice Server (fun a b => stringLess (a.SortKey ipString) (b.SortKey ipString))
          (appendServers addrs₂ port [])) :
    ∀ (fuel i : Nat) (acc : List Proxy),
      ServiceConfig.proxiesFrom sortSlice ipString c addrs₁ fuel i acc
        = ServiceConfig.proxiesFrom sortSlice ipString c addrs₂ fuel i acc := by
  intro fuel
  induction fuel with
  | zero => intro i acc; rfl
  | succ n ih =>
    intro i acc
    unfold ServiceConfig.proxiesFrom
    by_cases hi : i < c.Ports.length
    · rw [dif_pos hi, dif_pos hi]
      split
      · simp only [Proxy.SortServers]
        rw [hsame, ih]
      · rfl
    · rw [dif_neg hi, dif_neg hi]

/-- What a successful `collectProxies` returns, given the proxies of each declaration. -/
theorem collectProxies_flatMap (sortSlice : SliceSorter) (ipString : IP → String)
    (resolver : Resolver) (f : ServiceConfig → List Proxy) :
    ∀ (scs : List ServiceConfig) (config : NGINXConfig),
      (∀ sc ∈ scs, sc.NGINXConfig sortSlice ipString resolver = .ok { Proxies := f sc }) →
      collectProxies sortSlice ipString resolver scs config
        = .ok { Proxies := config.Proxies ++ scs.flatMap f } := by
  intro scs
  induction scs with
  | nil => intro config _; simp [collectProxies]
  | cons sc rest ih =>
    intro config h
    unfold collectProxies
    rw [h sc (List.mem_cons_self _ _)]
    simp only []
    rw [ih _ (fun x hx => h x (List.mem_cons_of_mem _ hx))]
    simp [List.flatMap_cons]

/-- A successful `collectProxies` converted every declaration. -/
theorem collectProxies_ok_each (sortSlice : SliceSorter) (ipString : IP → String)
    (resolver : Resolver) :
    ∀ (scs : List ServiceConfig) (config t : NGINXConfig),
      collectProxies sortSlice ipString resolver scs config = .ok t →
      ∀ sc ∈ scs, ∃ nc, sc.NGINXConfig sortSlice ipString resolver = .ok nc := by
  intro scs
  induction scs with
  | nil => intro _ _ _ sc hsc; cases hsc
  | cons s rest ih =>
    intro config t h sc hsc
    unfold collectProxies at h
    split at h
    · cases h
    · cases h
    · rename_i nc hnc
      rw [List.mem_cons] at hsc
      rcases hsc with rfl | hsc
      · exact ⟨nc, hnc⟩
      · exact ih _ _ h sc hsc

/-- The servers of every proxy of a converted declaration. -/
theorem nginxConfig_servers (sortSlice : SliceSorter) (ipString : IP → String)
    (resolver : Resolver) (sc : ServiceConfig) (nc : NGINXConfig)
    (h : sc.NGINXConfig sortSlice ipString resolver = .ok nc) :
    ∃ addrs, resolver sc.ID sc.Network = .ok addrs ∧
      ∀ p ∈ nc.Proxies, ∃ port, port ∈ sc.Ports ∧
        p.Servers = sortSlice Server
          (fun a b => stringLess (a.SortKey ipString) (b.SortKey ipString))
          (appendServers addrs port []) := by
  unfold ServiceConfig.NGINXConfig at h
  split at h
  · cases h
  · rename_i addrs hr
    refine ⟨addrs, hr, ?_⟩
    split at h
    · cases h
    · rename_i proxies hps
      injection h with h
      subst h
      intro p hp
      rcases proxiesFrom_mem sortSlice ipString sc addrs _ _ _ _ hps p hp with hm | hm
      · cases hm
      · exact hm

theorem string_append_right_cancel (s₁ s₂ t : String) (h : s₁ ++ t = s₂ ++ t) : s₁ = s₂ := by
  apply String.ext
  have h2 := congrArg String.data h
  rw [String.data_append, String.data_append] at h2
  exact List.append_cancel_right h2

/-- Servers of one rule (one backend port) with the same sort key have the same address
text. -/
theorem server_key_inj (ipString : IP → String) (x y : IP) (port : Int)
    (h : Server.SortKey ipString { Address := x, Port := port }
      = Server.SortKey ipString { Address := y, Port := port }) : ipString x = ipString y := by
  unfold Server.SortKey at h
  simp only [] at h
  exact string_append_right_cancel _ _ _ (string_append_right_cancel _ _ _ h)

/-- Sorting the servers built from two listings of the same addresses gives the same list,
when distinct addresses have distinct texts. -/
theorem sorted_servers_eq (sortSlice : SliceSorter) (ipString : IP → String)
    (hs : SortContract sortSlice) (a₁ a₂ : List IP) (hp : a₁.Perm a₂)
    (hinj : ∀ x ∈ a₁, ∀ y ∈ a₁, ipString x = ipString y → x = y) (port : Int) :
    sortSlice Server (fun a b => stringLess (a.SortKey ipString) (b.SortKey ipString))
        (appendServers a₁ port [])
      = sortSlice Server (fun a b => stringLess (a.SortKey ipString) (b.SortKey ipString))
        (appendServers a₂ port []) := by
  simp only [appendServers_eq, List.nil_append]
  have p1 := hs.1 Server (fun a b => stringLess (a.SortKey ipString) (b.SortKey ipString))
    (appendServers a₁ port [])
  have p2 := hs.1 Server (fun a b => stringLess (a.SortKey ipString) (b.SortKey ipString))
    (appendServers a₂ port [])
  have s1 := hs.2 Server (Server.SortKey ipString) (appendServers a₁ port [])
  have s2 := hs.2 Server (Server.SortKey ipString) (appendServers a₂ port [])
  simp only [appendServers_eq, List.nil_append] at p1 p2 s1 s2
  have pm : (a₁.map (fun a => ({ Address := a, Port := port } : Server))).Perm
      (a₂.map (fun a => ({ Address := a, Port := port } : Server))) := hp.map _
  refine List.Perm.eq_of_sorted ?_ s1 s2 (p1.trans (pm.trans p2.symm))
  intro a b ha hb hab hba
  have ha' := (List.Perm.mem_iff p1).mp ha
  have hb' := (List.Perm.mem_iff (p2.trans pm.symm)).mp hb
  rw [List.mem_map] at ha' hb'
  obtain ⟨x, hx, rfl⟩ := ha'
  obtain ⟨y, hy, rfl⟩ := hb'
  have hk := le_antisymm hab hba
  rw [hinj x hx y hy (server_key_inj ipString x y port hk)]

/-- The conversion of a declaration depends on the resolver only through the sorted server
lists. -/
theorem nginxConfig_congr (sortSlice : SliceSorter) (ipString : IP → String)
    (r₁ r₂ : Resolver) (sc : ServiceConfig) (a₁ a₂ : List IP)
    (h₁ : r₁ sc.ID sc.Network = .ok a₁) (h₂ : r₂ sc.ID sc.Network = .ok a₂)
    (hsame : ∀ port,
      sortSlice Server (fun a b => stringLess (a.SortKey ipString) (b.SortKey ipString))
          (appendServers a₁ port [])
        = sortSlice Server (fun a b => stringLess (a.SortKey ipString) (b.SortKey ipString))
          (appendServers a₂ port [])) :
    sc.NGINXConfig sortSlice ipString r₁ = sc.NGINXConfig sortSlice ipString r₂ := by
  unfold ServiceConfig.NGINXConfig
  rw [h₁, h₂]
  simp only []
  rw [proxiesFrom_congr sortSlice ipString sc a₁ a₂ hsame]

/-- The table is the sorted concatenation of the proxies of the declarations. -/
theorem getNewConfiguration_ok (sortSlice : SliceSorter) (ipString : IP → String)
    (resolver : Resolver) (scs : List ServiceConfig) (t : NGINXConfig)
    (h : GetNewConfiguration sortSlice ipString (.ok scs) resolver = .ok t) :
    (∀ sc ∈ scs, ∃ nc, sc.NGINXConfig sortSlice ipString resolver = .ok nc) ∧
    collectProxies sortSlice ipString resolver scs { Proxies := [] }
      = .ok { Proxies := scs.flatMap (fun sc =>
          match sc.NGINXConfig sortSlice ipString resolver with
          | .ok nc => nc.Proxies
          | .error _ => []) } ∧
    t.Proxies = sortSlice Proxy
      (fun a b => stringLess (a.SortKey ipString) (b.SortKey ipString))
      (scs.flatMap (fun sc =>
          match sc.NGINXConfig sortSlice ipString resolver with
          | .ok nc => nc.Proxies
          | .error _ => [])) := by
  unfold GetNewConfiguration at h
  simp only [] at h
  split at h
  · cases h
  · rename_i pre hpre
    have each := collectProxies_ok_each sortSlice ipString resolver scs _ _ hpre
    have hf := collectProxies_flatMap sortSlice ipString resolver
      (fun sc =>
          match sc.NGINXConfig sortSlice ipString resolver with
          | .ok nc => nc.Proxies
          | .error _ => []) scs { Proxies := [] }
      (by
        intro sc hsc
        obtain ⟨nc, hnc⟩ := each sc hsc
        simp only [hnc])
    simp only [List.nil_append] at hf
    refine ⟨each, hf, ?_⟩
    rw [hf] at hpre
    injection hpre with hpre
    injection h with h
    rw [← h, ← hpre]
    rfl

/-- C3. For a declaration `c` accepted by `Validate` (common length `L`) and a successful
endpoint resolution `addrs`, `NGINXConfig` returns, without any index out of range, exactly
`L` proxies; the `i`-th has the name of `c`, the `i`-th listen address, port and protocol,
and as servers, up to order, one server `(a, Ports[i])` per element `a` of `addrs`. -/
theorem nginxConfig_one_rule_per_index (sortSlice : SliceSorter) (ipString : IP → String)
    (resolver : Resolver) (c₀ c : ServiceConfig) (addrs : List IP)
    (hs : SortContract sortSlice) (hv : c₀.Validate = (c, none))
    (hr : resolver c.ID c.Network = .ok addrs) :
    ∃ ng, c.NGINXConfig sortSlice ipString resolver = .ok ng ∧
      ng.Proxies.length = commonLength c₀ ∧
      ∀ i, i < commonLength c₀ →
        ∃ p, ng.Proxies[i]? = some p ∧ RuleAt c addrs i p ∧
          p.Servers.length = addrs.length := by
  have hnone : c₀.Validate.2 = none := by rw [hv]
  obtain ⟨⟨p1, _⟩, ⟨i1, _⟩, ⟨l1, _⟩, ⟨q1, _⟩⟩ := validate_none_normalized c₀ hnone
  rw [hv] at p1 i1 l1 q1
  simp only [] at p1 i1 l1 q1
  obtain ⟨ps, hps, hlen, hall⟩ := proxiesFrom_spec sortSlice ipString c addrs
    (by rw [i1, p1]) (by rw [l1, p1]) (by rw [q1, p1]) c.Ports.length 0 [] (by omega)
  refine ⟨{ Proxies := ps }, ?_, ?_, ?_⟩
  · unfold ServiceConfig.NGINXConfig
    rw [hr]
    simp only []
    rw [hps]
    rfl
  · simp only [hlen, p1]
    omega
  · intro i hi
    obtain ⟨p, hp, hname, hip, hlp, hpr, port, hport, hsv⟩ := hall i (by omega)
    simp only [Nat.zero_add] at hip hlp hpr hport
    have hperm : p.Servers.Perm (addrs.map (fun a => { Address := a, Port := port })) := by
      rw [hsv]
      have := hs.1 Server (fun a b => stringLess (a.SortKey ipString) (b.SortKey ipString))
        (appendServers addrs port [])
      refine this.trans ?_
      rw [appendServers_eq]
      simp
    refine ⟨p, hp, ⟨hname, hip, hlp, hpr, port, hport, hperm⟩, ?_⟩
    rw [hperm.length_eq, List.length_map]

/-- Witness of C3: the sample declaration, normalized, with two resolved addresses. -/
theorem nginxConfig_one_rule_per_index_witness :
    ∃ ng, sampleDecl.Validate.1.NGINXConfig goInsertionSort ipv4String twoTasks = .ok ng ∧
      ng.Proxies.length = 3 ∧
      ∀ i, i < 3 →
        ∃ p, ng.Proxies[i]? = some p ∧
          RuleAt sampleDecl.Validate.1 [[10, 1, 0, 2], [10, 1, 0, 1]] i p ∧
          p.Servers.length = [[10, 1, 0, 2], [10, 1, 0, 1]].length :=
  nginxConfig_one_rule_per_index goInsertionSort ipv4String twoTasks sampleDecl
    sampleDecl.Validate.1 [[10, 1, 0, 2], [10, 1, 0, 1]] goInsertionSort_contract
    (by decide) (by decide)

/-- C4. In every table that `GetNewConfiguration` returns, the proxies are in non-decreasing
order of `Proxy.SortKey` and the servers of every proxy in non-decreasing order of
`Server.SortKey`; the proxies are a permutation of those collected before `SortProxies`, and
the servers of each proxy a permutation of those appended before `SortServers`. -/
theorem getNewConfiguration_sorted (sortSlice : SliceSorter) (ipString : IP → String)
    (hs : SortContract sortSlice) (services : Except String (List ServiceConfig))
    (resolver : Resolver) (t : NGINXConfig)
    (h : GetNewConfiguration sortSlice ipString services resolver = .ok t) :
    t.Proxies.Sorted (fun p q => p.SortKey ipString ≤ q.SortKey ipString) ∧
    (∀ p ∈ t.Proxies,
      p.Servers.Sorted (fun a b => a.SortKey ipString ≤ b.SortKey ipString)) ∧
    ∃ scs, services = .ok scs ∧
      (∃ pre, collectProxies sortSlice ipString resolver scs { Proxies := [] } = .ok pre ∧
        t.Proxies.Perm pre.Proxies) ∧
      (∀ p ∈ t.Proxies, ∃ sc ∈ scs, ∃ addrs, resolver sc.ID sc.Network = .ok addrs ∧
        ∃ port ∈ sc.Ports, p.Servers.Perm (appendServers addrs port [])) := by
  rcases services with err | scs
  · simp [GetNewConfiguration] at h
  obtain ⟨each, hpre, ht⟩ := getNewConfiguration_ok sortSlice ipString resolver scs t h
  have hperm : t.Proxies.Perm (scs.flatMap (fun sc =>
      match sc.NGINXConfig sortSlice ipString resolver with
      | .ok nc => nc.Proxies
      | .error _ => [])) := by
    rw [ht]
    exact hs.1 _ _ _
  have hmem : ∀ p ∈ t.Proxies, ∃ sc ∈ scs, ∃ addrs, resolver sc.ID sc.Network = .ok addrs ∧
      ∃ port ∈ sc.Ports, p.Servers = sortSlice Server
        (fun a b => stringLess (a.SortKey ipString) (b.SortKey ipString))
        (appendServers addrs port []) := by
    intro p hp
    have hp' := (List.Perm.mem_iff hperm).mp hp
    rw [List.mem_flatMap] at hp'
    obtain ⟨sc, hsc, hpsc⟩ := hp'
    obtain ⟨nc, hnc⟩ := each sc hsc
    simp only [hnc] at hpsc
    obtain ⟨addrs, hr, hall⟩ := nginxConfig_servers sortSlice ipString resolver sc nc hnc
    obtain ⟨port, hport, hsv⟩ := hall p hpsc
    exact ⟨sc, hsc, addrs, hr, port, hport, hsv⟩
  refine ⟨?_, ?_, scs, rfl, ⟨_, hpre, hperm⟩, ?_⟩
  · rw [ht]
    exact hs.2 Proxy (Proxy.SortKey ipString) _
  · intro p hp
    obtain ⟨sc, _, addrs, _, port, _, hsv⟩ := hmem p hp
    rw [hsv]
    exact hs.2 Server (Server.SortKey ipString) _
  · intro p hp
    obtain ⟨sc, hsc, addrs, hr, port, hport, hsv⟩ := hmem p hp
    refine ⟨sc, hsc, addrs, hr, port, hport, ?_⟩
    rw [hsv]
    exact hs.1 _ _ _

/-- Witness of C4: two declarations, two resolved addresses each. -/
theorem getNewConfiguration_sorted_witness :
    GetNewConfiguration goInsertionSort ipv4String (.ok [declA, declC]) twoTasks
      = .ok { Proxies :=
          [⟨"api", [10, 0, 0, 1], 443, 1, [⟨[10, 1, 0, 1], 9000⟩, ⟨[10, 1, 0, 2], 9000⟩]⟩,
           ⟨"api", [10, 0, 0, 1], 444, 0, [⟨[10, 1, 0, 1], 9001⟩, ⟨[10, 1, 0, 2], 9001⟩]⟩,
           ⟨"web", [10, 0, 0, 1], 8080, 0, [⟨[10, 1, 0, 1], 80⟩, ⟨[10, 1, 0, 2], 80⟩]⟩] } ∧
    List.Sorted (fun p q => Proxy.SortKey ipv4String p ≤ Proxy.SortKey ipv4String q)
      [⟨"api", [10, 0, 0, 1], 443, 1, [⟨[10, 1, 0, 1], 9000⟩, ⟨[10, 1, 0, 2], 9000⟩]⟩,
       ⟨"api", [10, 0, 0, 1], 444, 0, [⟨[10, 1, 0, 1], 9001⟩, ⟨[10, 1, 0, 2], 9001⟩]⟩,
       ⟨"web", [10, 0, 0, 1], 8080, 0, [⟨[10, 1, 0, 1], 80⟩, ⟨[10, 1, 0, 2], 80⟩]⟩] :=
  ⟨by decide,
    (getNewConfiguration_sorted goInsertionSort ipv4String goInsertionSort_contract
      (.ok [declA, declC]) twoTasks _ (by decide)).1⟩

/-- C5 as stated fails.  Two validated declarations with the same name and listener come
out in the order they went in, so the two orders of the declarations give two different
tables; and one address resolved in its two encodings, which have the same text, comes out
in the order the resolver listed them. -/
theorem table_depends_on_input_order :
    (declA.Validate = (declA, none) ∧ declB.Validate = (declB, none) ∧
      [declA, declB].Perm [declB, declA] ∧
      GetNewConfiguration goInsertionSort ipv4String (.ok [declA, declB]) oneTask
        = .ok { Proxies :=
            [⟨"web", [10, 0, 0, 1], 8080, 0, [⟨[10, 1, 0, 1], 80⟩]⟩,
             ⟨"web", [10, 0, 0, 1], 8080, 0, [⟨[10, 1, 0, 1], 81⟩]⟩] } ∧
      GetNewConfiguration goInsertionSort ipv4String (.ok [declB, declA]) oneTask
        = .ok { Proxies :=
            [⟨"web", [10, 0, 0, 1], 8080, 0, [⟨[10, 1, 0, 1], 81⟩]⟩,
             ⟨"web", [10, 0, 0, 1], 8080, 0, [⟨[10, 1, 0, 1], 80⟩]⟩] }) ∧
    (List.Perm [[10, 1, 0, 1], [0, 0, 0, 0, 0, 0, 0, 0, 0, 0, 255, 255, 10, 1, 0, 1]]
        [[0, 0, 0, 0, 0, 0, 0, 0, 0, 0, 255, 255, 10, 1, 0, 1], [10, 1, 0, 1]] ∧
      GetNewConfiguration goInsertionSort ipv4String (.ok [declA]) mixedEncodings
        ≠ GetNewConfiguration goInsertionSort ipv4String (.ok [declA]) mixedEncodingsSwapped) :=
  ⟨⟨by decide, by decide, List.Perm.swap _ _ _, by decide, by decide⟩,
    ⟨List.Perm.swap _ _ _, by decide⟩⟩

/-- C5, amended. Let two lists of declarations be permutations of each other, and let the two
resolvers return, for every declaration, permutations of the same addresses, distinct
addresses having distinct texts.  If the first run returns a table in which proxies with the
same sort key are equal, the second run returns the same table: the same sequence of
proxies, each with the same sequence of servers. -/
theorem getNewConfiguration_order_independent (sortSlice : SliceSorter)
    (ipString : IP → String) (hs : SortContract sortSlice)
    (scs₁ scs₂ : List ServiceConfig) (r₁ r₂ : Resolver) (t : NGINXConfig)
    (hperm : scs₁.Perm scs₂)
    (hres : ∀ sc ∈ scs₁, ∃ a₁ a₂, r₁ sc.ID sc.Network = .ok a₁ ∧
      r₂ sc.ID sc.Network = .ok a₂ ∧ a₁.Perm a₂ ∧
      ∀ x ∈ a₁, ∀ y ∈ a₁, ipString x = ipString y → x = y)
    (h₁ : GetNewConfiguration sortSlice ipString (.ok scs₁) r₁ = .ok t)
    (hkeys : ∀ p ∈ t.Proxies, ∀ q ∈ t.Proxies,
      p.SortKey ipString = q.SortKey ipString → p = q) :
    GetNewConfiguration sortSlice ipString (.ok scs₂) r₂ = .ok t := by
  obtain ⟨each, hpre, ht⟩ := getNewConfiguration_ok sortSlice ipString r₁ scs₁ t h₁
  have hsame : ∀ sc ∈ scs₁,
      sc.NGINXConfig sortSlice ipString r₁ = sc.NGINXConfig sortSlice ipString r₂ := by
    intro sc hsc
    obtain ⟨a₁, a₂, e₁, e₂, hp, hinj⟩ := hres sc hsc
    exact nginxConfig_congr sortSlice ipString r₁ r₂ sc a₁ a₂ e₁ e₂
      (sorted_servers_eq sortSlice ipString hs a₁ a₂ hp hinj)
  have h₂ := collectProxies_flatMap sortSlice ipString r₂
    (fun sc =>
      match sc.NGINXConfig sortSlice ipString r₁ with
      | .ok nc => nc.Proxies
      | .error _ => []) scs₂ { Proxies := [] }
    (by
      intro sc hsc
      have hsc₁ : sc ∈ scs₁ := (List.Perm.mem_iff hperm).mpr hsc
      obtain ⟨nc, hnc⟩ := each sc hsc₁
      rw [← hsame sc hsc₁]
      simp only [hnc])
  simp only [List.nil_append] at h₂
  unfold GetNewConfiguration
  simp only []
  rw [h₂]
  simp only [NGINXConfig.SortProxies]
  have hcfg : ∀ a b : NGINXConfig, a.Proxies = b.Proxies → a = b := by
    intro a b hab
    cases a
    cases b
    simp only at hab
    rw [hab]
  refine congrArg Except.ok (hcfg _ _ ?_)
  simp only []
  rw [ht]
  have s₁ := hs.2 Proxy (Proxy.SortKey ipString) (scs₁.flatMap (fun sc =>
      match sc.NGINXConfig sortSlice ipString r₁ with
      | .ok nc => nc.Proxies
      | .error _ => []))
  have s₂ := hs.2 Proxy (Proxy.SortKey ipString) (scs₂.flatMap (fun sc =>
      match sc.NGINXConfig sortSlice ipString r₁ with
      | .ok nc => nc.Proxies
      | .error _ => []))
  have p₁ := hs.1 Proxy (fun a b => stringLess (a.SortKey ipString) (b.SortKey ipString))
    (scs₁.flatMap (fun sc =>
      match sc.NGINXConfig sortSlice ipString r₁ with
      | .ok nc => nc.Proxies
      | .error _ => []))
  have p₂ := hs.1 Proxy (fun a b => stringLess (a.SortKey ipString) (b.SortKey ipString))
    (scs₂.flatMap (fun sc =>
      match sc.NGINXConfig sortSlice ipString r₁ with
      | .ok nc => nc.Proxies
      | .error _ => []))
  have pm := List.Perm.flatMap_right (fun sc =>
      match sc.NGINXConfig sortSlice ipString r₁ with
      | .ok nc => nc.Proxies
      | .error _ => []) hperm
  have pall := p₂.trans (pm.symm.trans p₁.symm)
  refine List.Perm.eq_of_sorted ?_ s₂ s₁ pall
  intro a b ha hb hab hba
  rw [← ht] at hb
  have ha' := (List.Perm.mem_iff pall).mp ha
  rw [← ht] at ha'
  exact hkeys a ha' b hb (le_antisymm hab hba)

/-- Witness of the amended C5: the declarations and the resolved addresses in two orders. -/
theorem getNewConfiguration_order_independent_witness :
    GetNewConfiguration goInsertionSort ipv4String (.ok [declC, declA]) twoTasksSwapped
      = .ok { Proxies :=
          [⟨"api", [10, 0, 0, 1], 443, 1, [⟨[10, 1, 0, 1], 9000⟩, ⟨[10, 1, 0, 2], 9000⟩]⟩,
           ⟨"api", [10, 0, 0, 1], 444, 0, [⟨[10, 1, 0, 1], 9001⟩, ⟨[10, 1, 0, 2], 9001⟩]⟩,
           ⟨"web", [10, 0, 0, 1], 8080, 0, [⟨[10, 1, 0, 1], 80⟩, ⟨[10, 1, 0, 2], 80⟩]⟩] } :=
  getNewConfiguration_order_independent goInsertionSort ipv4String goInsertionSort_contract
    [declA, declC] [declC, declA] twoTasks twoTasksSwapped _ (List.Perm.swap _ _ _)
    (by
      intro sc hsc
      exact ⟨[[10, 1, 0, 2], [10, 1, 0, 1]], [[10, 1, 0, 1], [10, 1, 0, 2]], rfl, rfl,
        List.Perm.swap _ _ _, by decide⟩)
    (by decide) (by decide)

/-- A tick whose digest equals the stored hash only logs. -/
theorem tick_unchanged (Debug : Bool) (sortSlice : SliceSorter) (ipString : IP → String)
    (sha256hex : Bytes → String) (env : Environment) (m : Monitor)
    (config : NGINXConfig) (j : String) (bytes : Bytes)
    (hG : GetNewConfiguration sortSlice ipString env.services env.resolver = .ok config)
    (hj : env.jsonMarshal config = .ok j)
    (hM : config.Marshal env.execute = .ok bytes)
    (hh : sha256hex bytes = m.hash) :
    (m.tick Debug sortSlice ipString sha256hex env).monitor = m ∧
    (m.tick Debug sortSlice ipString sha256hex env).control = .next ∧
    ∀ e ∈ (m.tick Debug sortSlice ipString sha256hex env).events,
      e.isConfigWrite = false ∧ e.isReload = false := by
  unfold Monitor.tick
  simp only [hG, hj, hM, hh, if_true]
  refine ⟨trivial, trivial, ?_⟩
  intro e he
  cases Debug
  · simp at he
  · simp at he
    rcases he with rfl | rfl | rfl <;> simp [Event.isConfigWrite, Event.isReload]

/-- The events of `NewConfig` are never the reload signal. -/
theorem newConfig_no_reload (Debug : Bool) (env : Environment) (bytes : Bytes) :
    ∀ e ∈ (NGINX.NewConfig Debug env bytes).1, e.isReload = false := by
  intro e he
  unfold NGINX.NewConfig at he
  rcases hc : env.createErr with _ | err
  · rcases hw : env.writeErr with _ | err
    · simp only [hc, hw] at he
      cases Debug <;> simp at he <;> rcases he with rfl | rfl | rfl <;> simp [Event.isReload]
    · simp only [hc, hw] at he
      simp at he
      rcases he with rfl | rfl <;> simp [Event.isReload]
  · simp only [hc] at he
    simp at he
    subst he
    simp [Event.isReload]

/-- A tick whose digest differs from the stored hash, by the outcome of the write. -/
theorem tick_changed (Debug : Bool) (sortSlice : SliceSorter) (ipString : IP → String)
    (sha256hex : Bytes → String) (env : Environment) (m : Monitor)
    (config : NGINXConfig) (j : String) (bytes : Bytes)
    (hG : GetNewConfiguration sortSlice ipString env.services env.resolver = .ok config)
    (hj : env.jsonMarshal config = .ok j)
    (hM : config.Marshal env.execute = .ok bytes)
    (hh : sha256hex bytes ≠ m.hash) :
    ((NGINX.NewConfig Debug env bytes).2 ≠ none →
      (m.tick Debug sortSlice ipString sha256hex env).monitor = m ∧
      (m.tick Debug sortSlice ipString sha256hex env).control = .next ∧
      ∀ e ∈ (m.tick Debug sortSlice ipString sha256hex env).events, e.isReload = false) ∧
    ((NGINX.NewConfig Debug env bytes).2 = none →
      (m.tick Debug sortSlice ipString sha256hex env).monitor.hash = sha256hex bytes ∧
      (m.tick Debug sortSlice ipString sha256hex env).control = .next ∧
      Event.signalHUP ∈ (m.tick Debug sortSlice ipString sha256hex env).events) := by
  have hnr := newConfig_no_reload Debug env bytes
  unfold Monitor.tick
  simp only [hG, hj, hM, hh, if_false]
  rcases hN : NGINX.NewConfig Debug env bytes with ⟨wev, _ | err⟩
  · rw [hN] at hnr
    refine ⟨fun h => absurd rfl h, fun _ => ⟨rfl, rfl, ?_⟩⟩
    simp only [NGINX.Reload]
    rcases env.signalErr with _ | e <;> cases Debug <;> simp
  · rw [hN] at hnr
    refine ⟨fun _ => ⟨rfl, rfl, ?_⟩, fun h => by cases h⟩
    intro e he
    simp only [List.mem_append, List.mem_singleton] at he
    rcases he with (he | he) | he
    · cases Debug <;> simp at he <;> rcases he with rfl | rfl <;> simp [Event.isReload]
    · exact hnr e he
    · subst he
      rfl

/-- A failing template engine ends the tick, and the program, at `log.Fatalln`. -/
theorem tick_marshal_error (Debug : Bool) (sortSlice : SliceSorter) (ipString : IP → String)
    (sha256hex : Bytes → String) (env : Environment) (m : Monitor)
    (config : NGINXConfig) (j err : String)
    (hG : GetNewConfiguration sortSlice ipString env.services env.resolver = .ok config)
    (hj : env.jsonMarshal config = .ok j)
    (hM : config.Marshal env.execute = .error err) :
    (m.tick Debug sortSlice ipString sha256hex env).monitor = m ∧
    (m.tick Debug sortSlice ipString sha256hex env).control = .fatal ∧
    ∀ e ∈ (m.tick Debug sortSlice ipString sha256hex env).events,
      e.isConfigWrite = false ∧ e.isReload = false := by
  unfold Monitor.tick
  simp only [hG, hj, hM]
  refine ⟨trivial, trivial, ?_⟩
  intro e he
  cases Debug <;> simp at he <;> rcases he with rfl | rfl <;>
    simp [Event.isConfigWrite, Event.isReload]

/-- The hash stored by `NewMonitor` is the digest of the bytes it rendered. -/
theorem newMonitor_hash (Debug : Bool) (sortSlice : SliceSorter) (ipString : IP → String)
    (sha256hex : Bytes → String) (env : Environment) (m : Monitor)
    (config : NGINXConfig) (bytes : Bytes)
    (hG : GetNewConfiguration sortSlice ipString env.services env.resolver = .ok config)
    (hM : config.Marshal env.execute = .ok bytes)
    (hN : (NewMonitor Debug sortSlice ipString sha256hex env).1 = some m) :
    m.hash = sha256hex bytes := by
  unfold NewMonitor at hN
  simp only [hG, hM] at hN
  split at hN
  · cases hN
  · split at hN
    · cases hN
    · split at hN
      · cases hN
      · split at hN
        · cases hN
        · simp only [Option.some.injEq] at hN
          rw [← hN]

/-- C6. A tick in which the digest of the rendered configuration equals the stored hash
writes no configuration, sends no reload signal and leaves the stored hash unchanged.  Hence
the tick does nothing when it follows, with an unchanged table and rendering, a tick whose
write succeeded, or the start of the monitor. -/
theorem unchanged_tick_is_idle (Debug : Bool) (sortSlice : SliceSorter)
    (ipString : IP → String) (sha256hex : Bytes → String) (env : Environment) (m : Monitor)
    (config : NGINXConfig) (j : String) (bytes : Bytes)
    (hG : GetNewConfiguration sortSlice ipString env.services env.resolver = .ok config)
    (hj : env.jsonMarshal config = .ok j)
    (hM : config.Marshal env.execute = .ok bytes) :
    (sha256hex bytes = m.hash →
      (m.tick Debug sortSlice ipString sha256hex env).Idle m) ∧
    (∀ (env₀ : Environment) (m₀ : Monitor) (j₀ : String),
      GetNewConfiguration sortSlice ipString env₀.services env₀.resolver = .ok config →
      env₀.jsonMarshal config = .ok j₀ →
      config.Marshal env₀.execute = .ok bytes →
      (NGINX.NewConfig Debug env₀ bytes).2 = none →
      m = (m₀.tick Debug sortSlice ipString sha256hex env₀).monitor →
      (m.tick Debug sortSlice ipString sha256hex env).Idle m) ∧
    (∀ (env₀ : Environment),
      GetNewConfiguration sortSlice ipString env₀.services env₀.resolver = .ok config →
      config.Marshal env₀.execute = .ok bytes →
      (NewMonitor Debug sortSlice ipString sha256hex env₀).1 = some m →
      (m.tick Debug sortSlice ipString sha256hex env).Idle m) := by
  have idle : sha256hex bytes = m.hash →
      (m.tick Debug sortSlice ipString sha256hex env).Idle m :=
    fun hh => tick_unchanged Debug sortSlice ipString sha256hex env m config j bytes hG hj hM hh
  refine ⟨idle, ?_, ?_⟩
  · intro env₀ m₀ j₀ hG₀ hj₀ hM₀ hw hm
    apply idle
    by_cases hh : sha256hex bytes = m₀.hash
    · have h := tick_unchanged Debug sortSlice ipString sha256hex env₀ m₀ config j₀ bytes
        hG₀ hj₀ hM₀ hh
      rw [hm, h.1, hh]
    · have h := (tick_changed Debug sortSlice ipString sha256hex env₀ m₀ config j₀ bytes
        hG₀ hj₀ hM₀ hh).2 hw
      rw [hm, h.1]
  · intro env₀ hG₀ hM₀ hN
    apply idle
    exact (newMonitor_hash Debug sortSlice ipString sha256hex env₀ m config bytes hG₀ hM₀
      hN).symm

/-- Witness of C6: the monitor started in `quietEnv` meets `quietEnv` again. -/
theorem unchanged_tick_is_idle_witness :
    (Monitor.tick false goInsertionSort ipv4String toyDigest quietEnv ⟨"13960"⟩).Idle
      ⟨"13960"⟩ :=
  (unchanged_tick_is_idle false goInsertionSort ipv4String toyDigest quietEnv ⟨"13960"⟩
    quietTable "\x7b\x7d" [2, 2, 2] (by decide) (by decide) (by decide)).2.2 quietEnv (by decide)
    (by decide) (by decide)

/-- C7. In a tick whose digest differs from the stored hash: if the write of the
configuration fails, no reload is attempted and the stored hash is unchanged; if it
succeeds, a reload is attempted and the stored hash becomes the new digest, whether the
reload succeeds or fails. -/
theorem changed_tick_write_then_reload (Debug : Bool) (sortSlice : SliceSorter)
    (ipString : IP → String) (sha256hex : Bytes → String) (env : Environment) (m : Monitor)
    (config : NGINXConfig) (j : String) (bytes : Bytes)
    (hG : GetNewConfiguration sortSlice ipString env.services env.resolver = .ok config)
    (hj : env.jsonMarshal config = .ok j)
    (hM : config.Marshal env.execute = .ok bytes)
    (hh : sha256hex bytes ≠ m.hash) :
    ((NGINX.NewConfig Debug env bytes).2 ≠ none →
      (m.tick Debug sortSlice ipString sha256hex env).monitor = m ∧
      (m.tick Debug sortSlice ipString sha256hex env).control = .next ∧
      ∀ e ∈ (m.tick Debug sortSlice ipString sha256hex env).events, e.isReload = false) ∧
    ((NGINX.NewConfig Debug env bytes).2 = none →
      (m.tick Debug sortSlice ipString sha256hex env).monitor.hash = sha256hex bytes ∧
      (m.tick Debug sortSlice ipString sha256hex env).control = .next ∧
      Event.signalHUP ∈ (m.tick Debug sortSlice ipString sha256hex env).events) :=
  tick_changed Debug sortSlice ipString sha256hex env m config j bytes hG hj hM hh

/-- Witness of C7: a failed write (`readOnlyEnv`), and a successful write followed by a
failed reload (`grownEnv`). -/
theorem changed_tick_write_then_reload_witness :
    ((Monitor.tick false goInsertionSort ipv4String toyDigest readOnlyEnv ⟨"13960"⟩).monitor
        = ⟨"13960"⟩ ∧
      ∀ e ∈ (Monitor.tick false goInsertionSort ipv4String toyDigest readOnlyEnv
        ⟨"13960"⟩).events, e.isReload = false) ∧
    ((Monitor.tick false goInsertionSort ipv4String toyDigest grownEnv ⟨"13960"⟩).monitor.hash
        = toyDigest [3, 3, 3] ∧
      Event.signalHUP ∈
        (Monitor.tick false goInsertionSort ipv4String toyDigest grownEnv ⟨"13960"⟩).events) :=
  have h₁ := (changed_tick_write_then_reload false goInsertionSort ipv4String toyDigest
    readOnlyEnv ⟨"13960"⟩ grownTable "\x7b\x7d" [3, 3, 3] (by decide) (by decide) (by decide)
    (by decide)).1 (by decide)
  have h₂ := (changed_tick_write_then_reload false goInsertionSort ipv4String toyDigest
    grownEnv ⟨"13960"⟩ grownTable "\x7b\x7d" [3, 3, 3] (by decide) (by decide) (by decide)
    (by decide)).2 (by decide)
  ⟨⟨h₁.1, h₁.2.2⟩, ⟨h₂.1, h₂.2.2⟩⟩

/-- C9 as stated fails: when the template engine fails in a tick, the tick ends the program
(`log.Fatalln`), and `Run` does not go on to the next cycle. -/
theorem marshal_failure_ends_program :
    (Monitor.tick false goInsertionSort ipv4String toyDigest brokenTemplateEnv
        ⟨"13960"⟩).control = .fatal ∧
    (Monitor.tick false goInsertionSort ipv4String toyDigest brokenTemplateEnv
        ⟨"13960"⟩).control ≠ .next ∧
    Monitor.Run false goInsertionSort ipv4String toyDigest [brokenTemplateEnv, grownEnv]
        ⟨"13960"⟩
      = Monitor.tick false goInsertionSort ipv4String toyDigest brokenTemplateEnv
        ⟨"13960"⟩ := by
  decide

/-- C9, amended. When rendering the table (`NGINXConfig.Marshal`) fails during a tick of
`Run`, the tick writes no configuration, sends no reload signal and leaves the stored hash
unchanged, and it ends the program through `log.Fatalln`: `Run` executes no later cycle. -/
theorem marshal_failure_is_fatal (Debug : Bool) (sortSlice : SliceSorter)
    (ipString : IP → String) (sha256hex : Bytes → String) (env : Environment)
    (rest : List Environment) (m : Monitor) (config : NGINXConfig) (j err : String)
    (hG : GetNewConfiguration sortSlice ipString env.services env.resolver = .ok config)
    (hj : env.jsonMarshal config = .ok j)
    (hM : config.Marshal env.execute = .error err) :
    (m.tick Debug sortSlice ipString sha256hex env).monitor = m ∧
    (∀ e ∈ (m.tick Debug sortSlice ipString sha256hex env).events,
      e.isConfigWrite = false ∧ e.isReload = false) ∧
    (m.tick Debug sortSlice ipString sha256hex env).control = .fatal ∧
    Monitor.Run Debug sortSlice ipString sha256hex (env :: rest) m
      = m.tick Debug sortSlice ipString sha256hex env := by
  obtain ⟨h1, h2, h3⟩ :=
    tick_marshal_error Debug sortSlice ipString sha256hex env m config j err hG hj hM
  refine ⟨h1, h3, h2, ?_⟩
  unfold Monitor.Run
  simp only [h2]

/-- Witness of the amended C9 on `brokenTemplateEnv`. -/
theorem marshal_failure_is_fatal_witness :
    (Monitor.tick true goInsertionSort ipv4String toyDigest brokenTemplateEnv
        ⟨"13960"⟩).control = .fatal ∧
    Monitor.Run true goInsertionSort ipv4String toyDigest [brokenTemplateEnv, quietEnv]
        ⟨"13960"⟩
      = Monitor.tick true goInsertionSort ipv4String toyDigest brokenTemplateEnv ⟨"13960"⟩ :=
  have h := marshal_failure_is_fatal true goInsertionSort ipv4String toyDigest
    brokenTemplateEnv [quietEnv] ⟨"13960"⟩ quietTable "\x7b\x7d" "template: nginx: executing"
    (by decide) (by decide) (by decide)
  ⟨h.2.2.1, h.2.2.2⟩

end NginxSwarm
